import Mathlib

/-!
# Verification of the py-questdb query-response materialization pipeline

A shallow embedding of `py_questdb/db.py` and `py_questdb/db_types.py`:
the wire-response decoder (`msgspec.json.decode` against `QuestDBResponse`),
the type-coercion table `TYPE_MAP`, the row materializer
`parse_and_yield_query_response`, the tabular materializer
(`query_df` / `query_df_sync` with `convert_types`), and the constructor's
URL construction.  Python builtins used by the source (`str`, `bool`, `int`,
`float`, `datetime.datetime.fromisoformat`) and the pandas operations the
source calls (`pd.DataFrame`, `pd.to_numeric` with `downcast`,
`pd.to_datetime`, `astype(str)`, `set_index`, `sort_index(ascending=False)`)
are modelled as executable Lean functions; each model carries a comment
stating what is abstracted.

Floats on the wire are modelled as exact rationals (`ℚ`); binary rounding of
IEEE doubles is not modelled, but float32/float64 exact-representability
(used by the pandas `downcast` policy) is modelled precisely.
-/

set_option maxRecDepth 10000

/-- Errors surfaced by the pipeline.  Constructor ↦ Python exception:
`malformedResponse` ↦ `msgspec.ValidationError`; `unknownColumnType` ↦
`KeyError` from the `TYPE_MAP` lookup; `invalidTimestamp` ↦ `ValueError`
from `datetime.fromisoformat`; `valueError` / `typeError` ↦ the
corresponding Python builtin exceptions; `keyError` ↦ pandas column lookup
failure. -/
inductive PyErr where
  | malformedResponse (msg : String)
  | unknownColumnType (typ : String)
  | invalidTimestamp (text : String)
  | valueError (msg : String)
  | typeError (msg : String)
  | keyError (msg : String)
deriving DecidableEq, Repr

/-- Model of a Python `datetime.datetime`: calendar fields plus an optional
UTC offset in minutes (`tz = none` models a naive datetime,
`tz = some off` a timezone-aware one with `tzinfo = timezone(off minutes)`). -/
structure PyDatetime where
  year : Nat
  month : Nat
  day : Nat
  hour : Nat
  minute : Nat
  second : Nat
  microsecond : Nat
  tz : Option Int
deriving DecidableEq, Repr

/-- Model of the Python values flowing through the pipeline: `null` is
Python `None`, `nan` is the float NaN (used by pandas for missing data),
and the remaining constructors are the JSON-scalar Python types plus
`datetime`.  JSON numbers carrying a fraction or exponent decode to
`float`; plain integers decode to `int`, mirroring Python's `json`/`msgspec`
behaviour.  Floats are exact rationals (binary rounding abstracted). -/
inductive PyVal where
  | null
  | nan
  | bool (b : Bool)
  | int (n : Int)
  | float (q : ℚ)
  | str (s : String)
  | datetime (d : PyDatetime)
deriving DecidableEq, Repr

deriving instance DecidableEq for Except

/-- Effectful map over a list, failing on the first error: the evaluation
order of a Python list comprehension or `for` loop over fallible steps. -/
def mapExcept (f : α → Except PyErr β) : List α → Except PyErr (List β)
  | [] => .ok []
  | a :: l => do
    let b ← f a
    let bs ← mapExcept f l
    .ok (b :: bs)

/-- Digit value of a character, `none` if not a decimal digit. -/
def digitVal (c : Char) : Option Nat :=
  if c.isDigit then some (c.toNat - 48) else none

/-- Parse exactly `n` decimal digits from the front of the character list,
returning the value and the remaining characters. -/
def parseNDigits : Nat → List Char → Option (Nat × List Char)
  | 0, cs => some (0, cs)
  | _ + 1, [] => none
  | n + 1, c :: cs => do
    let d ← digitVal c
    let (r, rest) ← parseNDigits n cs
    pure (d * 10 ^ n + r, rest)

/-- Take all leading decimal digits. -/
def takeDigits : List Char → List Nat × List Char
  | [] => ([], [])
  | c :: cs =>
    match digitVal c with
    | some d => let (ds, rest) := takeDigits cs; (d :: ds, rest)
    | none => ([], c :: cs)

/-- Scale a list of fractional-second digits to microseconds: the first six
digits are significant, further digits are truncated (CPython ≥ 3.11
behaviour for `fromisoformat`). -/
def fracToMicros (ds : List Nat) : Nat :=
  (List.range 6).foldl (fun acc i => acc * 10 + (ds.getD i 0)) 0

/-- Gregorian leap-year rule, as implemented by Python `datetime`. -/
def isLeapYear (y : Nat) : Bool :=
  (y % 4 == 0 && y % 100 != 0) || y % 400 == 0

/-- Days in a month, as validated by the Python `datetime` constructor. -/
def daysInMonth (y m : Nat) : Nat :=
  if m == 2 then (if isLeapYear y then 29 else 28)
  else if m == 4 || m == 6 || m == 9 || m == 11 then 30
  else 31

/-- Parse a `±HH:MM` / `Z` trailing UTC offset; the whole remaining input
must be consumed.  Returns the offset in minutes (`none` = no offset, i.e.
a naive result).  Model of the offset forms emitted by QuestDB and accepted
by CPython ≥ 3.11 `fromisoformat`; the rarer `±HHMM` / `±HH` / seconds
forms are not modelled. -/
def parseOffset : List Char → Option (Option Int)
  | [] => some none
  | ['Z'] => some (some 0)
  | ['z'] => some (some 0)
  | c :: cs =>
    if c == '+' || c == '-' then do
      let (hh, cs) ← parseNDigits 2 cs
      match cs with
      | ':' :: cs => do
        let (mm, cs) ← parseNDigits 2 cs
        if cs.isEmpty && hh ≤ 23 && mm ≤ 59 then
          let total : Int := hh * 60 + mm
          some (some (if c == '-' then -total else total))
        else none
      | _ => none
    else none

/-- Parse `HH[:MM[:SS[.ffffff]]]` plus an optional trailing UTC offset. -/
def parseTimeTail (cs : List Char) : Option (Nat × Nat × Nat × Nat × Option Int) := do
  let (hh, cs) ← parseNDigits 2 cs
  match cs with
  | ':' :: cs => do
    let (mi, cs) ← parseNDigits 2 cs
    match cs with
    | ':' :: cs => do
      let (ss, cs) ← parseNDigits 2 cs
      match cs with
      | '.' :: cs =>
        match takeDigits cs with
        | ([], _) => none
        | (ds, rest) => do
          let tz ← parseOffset rest
          pure (hh, mi, ss, fracToMicros ds, tz)
      | ',' :: cs =>
        match takeDigits cs with
        | ([], _) => none
        | (ds, rest) => do
          let tz ← parseOffset rest
          pure (hh, mi, ss, fracToMicros ds, tz)
      | _ => do
        let tz ← parseOffset cs
        pure (hh, mi, ss, 0, tz)
    | _ => do
      let tz ← parseOffset cs
      pure (hh, mi, 0, 0, tz)
  | _ => do
    let tz ← parseOffset cs
    pure (hh, 0, 0, 0, tz)

/-- Core of the `datetime.datetime.fromisoformat` model: parse
`YYYY-MM-DD[{T| }HH:MM...]` with calendar/field validation.  Model of the
CPython ≥ 3.11 parser restricted to the forms above (basic-format dates,
week dates and fractional hours/minutes are not modelled). -/
def parseIsoChars (cs : List Char) : Option PyDatetime := do
  let (y, cs) ← parseNDigits 4 cs
  match cs with
  | '-' :: cs => do
    let (m, cs) ← parseNDigits 2 cs
    match cs with
    | '-' :: cs => do
      let (d, cs) ← parseNDigits 2 cs
      if 1 ≤ y && 1 ≤ m && m ≤ 12 && 1 ≤ d && d ≤ daysInMonth y m then
        match cs with
        | [] => pure ⟨y, m, d, 0, 0, 0, 0, none⟩
        | c :: cs =>
          if c == 'T' || c == ' ' then do
            let (hh, mi, ss, us, tz) ← parseTimeTail cs
            if hh ≤ 23 && mi ≤ 59 && ss ≤ 59 then
              pure ⟨y, m, d, hh, mi, ss, us, tz⟩
            else none
          else none
      else none
    | _ => none
  | _ => none

/-- Model of `datetime.datetime.fromisoformat` (CPython ≥ 3.11: the version
implied by the repository's use of trailing `Z`).  Invalid text raises
`ValueError`, modelled as `invalidTimestamp` per the spec's taxonomy. -/
def fromisoformat (s : String) : Except PyErr PyDatetime :=
  match parseIsoChars s.toList with
  | some d => .ok d
  | none => .error (.invalidTimestamp s)

/-- Model of Python `str()` on pipeline values.  Floats are rendered as
`num/den` (Python's shortest-roundtrip decimal rendering of binary floats
is abstracted; no theorem below depends on the text produced for floats or
datetimes). -/
def pyStr : PyVal → String
  | .null => "None"
  | .nan => "nan"
  | .bool b => if b then "True" else "False"
  | .int n => toString n
  | .float q => toString q.num ++ "/" ++ toString q.den
  | .str s => s
  | .datetime d =>
    toString d.year ++ "-" ++ toString d.month ++ "-" ++ toString d.day ++ " " ++
      toString d.hour ++ ":" ++ toString d.minute ++ ":" ++ toString d.second

/-- Model of Python `bool()` truthiness on pipeline values. -/
def pyTruthy : PyVal → Bool
  | .null => false
  | .nan => true
  | .bool b => b
  | .int n => n != 0
  | .float q => q != 0
  | .str s => s != ""
  | .datetime _ => true

/-- Parse an optionally signed run of decimal digits (model of `int(str)`;
Python's surrounding-whitespace and underscore tolerance is not modelled). -/
def parseIntText (s : String) : Option Int :=
  match s.toList with
  | '-' :: cs =>
    match takeDigits cs with
    | (ds, []) => if ds.isEmpty then none else some (-(ds.foldl (fun a d => a * 10 + d) 0 : Int))
    | _ => none
  | '+' :: cs =>
    match takeDigits cs with
    | (ds, []) => if ds.isEmpty then none else some (ds.foldl (fun a d => a * 10 + d) 0 : Int)
    | _ => none
  | cs =>
    match takeDigits cs with
    | (ds, []) => if ds.isEmpty then none else some (ds.foldl (fun a d => a * 10 + d) 0 : Int)
    | _ => none

/-- Parse a decimal literal `[±]digits[.digits]` to an exact rational
(model of `float(str)` restricted to plain decimal forms; exponents,
`inf`/`nan` literals and binary rounding are not modelled). -/
def parseFloatText (s : String) : Option ℚ :=
  let core : List Char → Option ℚ := fun cs =>
    match takeDigits cs with
    | (ds, rest) =>
      match rest with
      | [] => if ds.isEmpty then none else some ((ds.foldl (fun a d => a * 10 + d) 0 : Int) : ℚ)
      | '.' :: cs2 =>
        match takeDigits cs2 with
        | (fs, []) =>
          if ds.isEmpty && fs.isEmpty then none
          else
            let ip : Int := ds.foldl (fun a d => a * 10 + d) 0
            let fp : Int := fs.foldl (fun a d => a * 10 + d) 0
            some ((ip : ℚ) + (fp : ℚ) / ((10 : ℚ) ^ fs.length))
        | _ => none
      | _ => none
  match s.toList with
  | '-' :: cs => (core cs).map (fun q => -q)
  | '+' :: cs => core cs
  | cs => core cs

/-- Model of the Python constructor `str` as registered in `TYPE_MAP`. -/
def strConv (v : PyVal) : Except PyErr PyVal := .ok (.str (pyStr v))

/-- Model of the Python constructor `bool` as registered in `TYPE_MAP`. -/
def boolConv (v : PyVal) : Except PyErr PyVal := .ok (.bool (pyTruthy v))

/-- Model of the Python constructor `int` as registered in `TYPE_MAP`. -/
def intConv : PyVal → Except PyErr PyVal
  | .bool b => .ok (.int (if b then 1 else 0))
  | .int n => .ok (.int n)
  | .float q => .ok (.int (q.num.tdiv q.den))
  | .nan => .error (.valueError "cannot convert float NaN to integer")
  | .str s =>
    match parseIntText s with
    | some n => .ok (.int n)
    | none => .error (.valueError "invalid literal for int()")
  | .null => .error (.typeError "int() argument must not be None")
  | .datetime _ => .error (.typeError "int() argument")

/-- Model of the Python constructor `float` as registered in `TYPE_MAP`. -/
def floatConv : PyVal → Except PyErr PyVal
  | .bool b => .ok (.float (if b then 1 else 0))
  | .int n => .ok (.float (n : ℚ))
  | .float q => .ok (.float q)
  | .nan => .ok .nan
  | .str s =>
    match parseFloatText s with
    | some q => .ok (.float q)
    | none => .error (.valueError "could not convert string to float")
  | .null => .error (.typeError "float() argument must not be None")
  | .datetime _ => .error (.typeError "float() argument")

/-- Model of `datetime.datetime.fromisoformat` as registered in `TYPE_MAP`:
only text is accepted (a non-string argument raises `TypeError`). -/
def timestampConv : PyVal → Except PyErr PyVal
  | .str s => (fromisoformat s).map .datetime
  | _ => .error (.typeError "fromisoformat: argument must be str")

/-- `TYPE_MAP` from `db_types.py`: the fixed mapping from declared column
type tags to conversion callables; an unlisted tag has no entry (a lookup
raises `KeyError`, surfaced as `unknownColumnType`). -/
def TYPE_MAP : String → Option (PyVal → Except PyErr PyVal)
  | "SYMBOL" => some strConv
  | "BOOLEAN" => some boolConv
  | "LONG" => some intConv
  | "DOUBLE" => some floatConv
  | "VARCHAR" => some strConv
  | "TIMESTAMP" => some timestampConv
  | _ => none

/-- Per-cell step of `parse_and_yield_query_response`:
`converter(value) if value is not None else None`.  The null test happens
before the converter is applied. -/
def cellConvert (f : PyVal → Except PyErr PyVal) (v : PyVal) : Except PyErr PyVal :=
  match v with
  | .null => .ok .null
  | v => f v

/-- Coercion of one cell under a declared type tag: `TYPE_MAP` lookup
followed by the null-checked conversion.  (In the source the lookup happens
once per column before any row is walked; `coerceCell` packages the two
steps for per-cell statements.) -/
def coerceCell (typ : String) (v : PyVal) : Except PyErr PyVal :=
  match TYPE_MAP typ with
  | some f => cellConvert f v
  | none => .error (.unknownColumnType typ)

/-- A decoded JSON document (the input to `msgspec.json.decode`).  Numbers
split into integer and fractional constructors, mirroring the int/float
distinction msgspec preserves when decoding. -/
inductive Json where
  | null
  | bool (b : Bool)
  | int (n : Int)
  | float (q : ℚ)
  | str (s : String)
  | arr (items : List Json)
  | obj (fields : List (String × Json))
deriving Repr

/-- `QuestDBColumn` from `db_types.py`: a column descriptor. -/
structure QuestDBColumn where
  name : String
  type : String
deriving DecidableEq, Repr

/-- `QuestDBResponse` from `db_types.py`: the decoded query response.
`dataset` rows are untyped tuples of arbitrary length (`list[tuple]`): the
struct declares no relation between row lengths and `columns`. -/
structure QuestDBResponse where
  query : String
  columns : List QuestDBColumn
  timestamp : Int
  dataset : List (List PyVal)
  count : Int
deriving DecidableEq, Repr

/-- Required-field extraction for the msgspec decode model: a missing field
is a `ValidationError` (`malformedResponse`); unknown extra fields are
ignored, as msgspec does by default. -/
def getField (fields : List (String × Json)) (k : String) : Except PyErr Json :=
  match fields.lookup k with
  | some j => .ok j
  | none => .error (.malformedResponse ("missing field " ++ k))

/-- Strict string decode (msgspec rejects non-string JSON for `str`). -/
def decodeStr : Json → Except PyErr String
  | .str s => .ok s
  | _ => .error (.malformedResponse "expected str")

/-- Strict integer decode (msgspec rejects bools, floats and strings for
`int`). -/
def decodeInt : Json → Except PyErr Int
  | .int n => .ok n
  | _ => .error (.malformedResponse "expected int")

/-- Decode one dataset cell.  Scalars map to the corresponding Python
value; per the spec's data model (§3) a raw cell value is one of
{absent/null, boolean, number, string}, so nested arrays/objects inside a
cell are outside the model and rejected here. -/
def decodeCell : Json → Except PyErr PyVal
  | .null => .ok .null
  | .bool b => .ok (.bool b)
  | .int n => .ok (.int n)
  | .float q => .ok (.float q)
  | .str s => .ok (.str s)
  | .arr _ => .error (.malformedResponse "nested cell")
  | .obj _ => .error (.malformedResponse "nested cell")

/-- Decode one element of `columns` into a `QuestDBColumn` (an msgspec
struct with required fields `name` and `type`). -/
def decodeColumn (j : Json) : Except PyErr QuestDBColumn :=
  match j with
  | .obj fields => do
    let jn ← getField fields "name"
    let n ← decodeStr jn
    let jt ← getField fields "type"
    let t ← decodeStr jt
    .ok ⟨n, t⟩
  | _ => .error (.malformedResponse "expected column object")

/-- Decode one dataset row: a JSON array of cells (msgspec's `tuple` with
no parameters accepts an array of any length). -/
def decodeRow : Json → Except PyErr (List PyVal)
  | .arr cells => mapExcept decodeCell cells
  | _ => .error (.malformedResponse "expected row array")

/-- `QuestDB.parse_query_response`:
`msgspec.json.decode(response, type=QuestDBResponse)` modelled over an
already-tokenized JSON document.  All five declared fields are required
with strict types; no relation between row lengths and the number of
columns is checked, because the struct declares none. -/
def parse_query_response (j : Json) : Except PyErr QuestDBResponse :=
  match j with
  | .obj fields => do
    let jq ← getField fields "query"
    let q ← decodeStr jq
    let jc ← getField fields "columns"
    let cols ← match jc with
      | .arr items => mapExcept decodeColumn items
      | _ => .error (.malformedResponse "expected columns array")
    let jt ← getField fields "timestamp"
    let ts ← decodeInt jt
    let jd ← getField fields "dataset"
    let ds ← match jd with
      | .arr rows => mapExcept decodeRow rows
      | _ => .error (.malformedResponse "expected dataset array")
    let jn ← getField fields "count"
    let cnt ← decodeInt jn
    .ok ⟨q, cols, ts, ds, cnt⟩
  | _ => .error (.malformedResponse "expected response object")

/-- Re-encode a wire cell as JSON (inverse of `decodeCell` on wire
scalars; `nan`/`datetime` never occur in a wire response and map to
`null` — the round-trip theorem below excludes them by hypothesis). -/
def encodeCell : PyVal → Json
  | .null => .null
  | .bool b => .bool b
  | .int n => .int n
  | .float q => .float q
  | .str s => .str s
  | .nan => .null
  | .datetime _ => .null

/-- Re-encode a column descriptor as JSON. -/
def encodeColumn (c : QuestDBColumn) : Json :=
  .obj [("name", .str c.name), ("type", .str c.type)]

/-- Re-encode a `QuestDBResponse` in the exact wire layout of §6. -/
def encodeResponse (r : QuestDBResponse) : Json :=
  .obj [("query", .str r.query),
        ("columns", .arr (r.columns.map encodeColumn)),
        ("timestamp", .int r.timestamp),
        ("dataset", .arr (r.dataset.map (fun row => .arr (row.map encodeCell)))),
        ("count", .int r.count)]

/-- Wire scalars: the values a decoded cell can contain (`nan` and
`datetime` are produced only later in the pipeline, never by the decoder). -/
def isWireCell : PyVal → Bool
  | .nan => false
  | .datetime _ => false
  | _ => true

/-- A response whose dataset cells are all wire scalars: exactly the
responses the decoder can produce. -/
def wireCells (r : QuestDBResponse) : Prop :=
  ∀ row ∈ r.dataset, ∀ v ∈ row, isWireCell v = true

instance (r : QuestDBResponse) : Decidable (wireCells r) :=
  List.decidableBAll _ _

/-- A Python `dict` built by insertion order: an association list where
inserting an existing key overwrites the value in place. -/
abbrev PyDict := List (String × PyVal)

/-- Python dict assignment semantics: overwrite in place if the key is
present, else append. -/
def dictInsert (d : PyDict) (k : String) (v : PyVal) : PyDict :=
  if d.any (fun p => p.1 == k) then
    d.map (fun p => if p.1 == k then (k, v) else p)
  else
    d ++ [(k, v)]

/-- Python dict read: the value stored at a key, if present. -/
def dictLookup (d : PyDict) (k : String) : Option PyVal :=
  (d.find? (fun p => p.1 == k)).map (fun p => p.2)

/-- The converter list `[TYPE_MAP[col.type] for col in response.columns]`
built at the top of `parse_and_yield_query_response`: the first column
whose declared type has no `TYPE_MAP` entry raises (`KeyError`, surfaced
as `unknownColumnType`) before any row is walked. -/
def convertersFor (cols : List QuestDBColumn) :
    Except PyErr (List (PyVal → Except PyErr PyVal)) :=
  mapExcept (fun c =>
    match TYPE_MAP c.type with
    | some f => .ok f
    | none => .error (.unknownColumnType c.type)) cols

/-- The dict comprehension over `zip(response.columns, type_converter, row)`
building `converted_row`: pairs are produced positionally (`zip` stops at
the shortest of the three sequences) and inserted into the dict in order. -/
def convertRow (triples : List ((QuestDBColumn × (PyVal → Except PyErr PyVal)) × PyVal))
    (acc : PyDict) : Except PyErr PyDict :=
  match triples with
  | [] => .ok acc
  | ((c, f), v) :: rest => do
    let w ← cellConvert f v
    convertRow rest (dictInsert acc c.name w)

/-- `parse_and_yield_query_response` with `into_type=None`: the sequence of
generic key/value records. -/
def parse_and_yield_query_response (resp : QuestDBResponse) :
    Except PyErr (List PyDict) := do
  let convs ← convertersFor resp.columns
  mapExcept (fun row => convertRow ((resp.columns.zip convs).zip row) []) resp.dataset

/-- `parse_and_yield_query_response` with an optional `into_type`:
`yield into_type(**converted_row) if into_type else converted_row`.  The
caller-supplied shape is an arbitrary keyword construction that may fail
(`ShapeMismatch` propagated unchanged). -/
def parse_and_yield_into (T : Type) (intoType : Option (PyDict → Except PyErr T))
    (resp : QuestDBResponse) : Except PyErr (List (PyDict ⊕ T)) := do
  let convs ← convertersFor resp.columns
  mapExcept (fun row => do
    let d ← convertRow ((resp.columns.zip convs).zip row) []
    match intoType with
    | some mk => (mk d).map Sum.inr
    | none => .ok (.inl d)) resp.dataset

/-- The re-yield loop of the async generator `QuestDB.query`
(`for row in self.parse_and_yield_query_response(data, into_type): yield row`). -/
def reYield : List α → List α
  | [] => []
  | x :: xs => x :: reYield xs

/-- `QuestDB.query` (async path) from the decoded response onward: the
response is materialized and re-yielded row by row. -/
def query_rows (T : Type) (intoType : Option (PyDict → Except PyErr T))
    (resp : QuestDBResponse) : Except PyErr (List (PyDict ⊕ T)) :=
  (parse_and_yield_into T intoType resp).map reYield

/-- `QuestDB.query_sync` from the decoded response onward: the materialized
iterable is returned directly. -/
def query_sync_rows (T : Type) (intoType : Option (PyDict → Except PyErr T))
    (resp : QuestDBResponse) : Except PyErr (List (PyDict ⊕ T)) :=
  parse_and_yield_into T intoType resp

/-- The connection state built by `QuestDB.__init__`: the HTTP query URL
(note the literal `{9000}` in the f-string of `db.py` line 34) and the
host/port handed to the ingress `Sender`. -/
structure QuestDBConn where
  url : String
  senderHost : String
  senderPort : Int
deriving DecidableEq, Repr

/-- `QuestDB.__init__(host, port, ...)`: `self.url = f"http://{host}:{9000}"`
and `Sender("http", host, port, ...)`. -/
def questdb_init (host : String) (port : Int) : QuestDBConn :=
  { url := "http://" ++ host ++ ":" ++ toString (9000 : Nat)
    senderHost := host
    senderPort := port }

/-- The URL both `_query` and `_query_sync` issue their GET against:
`f"{self.url}/exec"`. -/
def execEndpoint (c : QuestDBConn) : String := c.url ++ "/exec"

/-- Strip all factors of two (used for exact float-representability). -/
def oddPart (n : Nat) : Nat :=
  if h : n = 0 then 0
  else if n % 2 == 0 then oddPart (n / 2) else n
termination_by n
decreasing_by exact Nat.div_lt_self (Nat.pos_of_ne_zero h) (by decide)

/-- 2-adic valuation of a natural number (0 at 0). -/
def twoVal (n : Nat) : Nat :=
  if h : n = 0 then 0
  else if n % 2 == 0 then twoVal (n / 2) + 1 else 0
termination_by n
decreasing_by exact Nat.div_lt_self (Nat.pos_of_ne_zero h) (by decide)

/-- Exact representability of a rational in a binary floating format with
`prec` mantissa bits, minimum exponent `-eminNeg` and largest finite value
`maxV`. -/
def floatFits (prec : Nat) (eminNeg : Nat) (maxV : ℚ) (q : ℚ) : Bool :=
  q == 0 ||
    (oddPart q.den == 1 &&
     oddPart q.num.natAbs < 2 ^ prec &&
     decide ((twoVal q.num.natAbs : Int) - (twoVal q.den : Int) ≥ -(eminNeg : Int)) &&
     decide (|q| ≤ maxV))

/-- Largest finite `float32` value, as an exact rational. -/
def float32Max : ℚ := ((2 ^ 24 - 1 : Nat) : ℚ) * 2 ^ 104

/-- Largest finite `float64` value, as an exact rational. -/
def float64Max : ℚ := ((2 ^ 53 - 1 : Nat) : ℚ) * 2 ^ 971

/-- Exact `float32` representability. -/
def f32ExactQ (q : ℚ) : Bool := floatFits 24 149 float32Max q

/-- Exact `float64` representability. -/
def f64ExactQ (q : ℚ) : Bool := floatFits 53 1074 float64Max q

/-- The numpy dtypes reachable through this pipeline. -/
inductive Dtype where
  | object | boolD | int8 | int16 | int32 | int64 | float32 | float64 | datetime64
deriving DecidableEq, Repr

/-- A pandas `Series`: a dtype label plus the column's values. -/
structure Series where
  dtype : Dtype
  values : List PyVal
deriving DecidableEq, Repr

/-- Per-value numeric conversion performed by `pd.to_numeric`: missing data
becomes NaN, bools become ints, numeric text is parsed, non-numeric input
raises. -/
def toNumericVal : PyVal → Except PyErr PyVal
  | .null => .ok .nan
  | .nan => .ok .nan
  | .bool b => .ok (.int (if b then 1 else 0))
  | .int n => .ok (.int n)
  | .float q => .ok (.float q)
  | .str s =>
    match parseIntText s with
    | some n => .ok (.int n)
    | none =>
      match parseFloatText s with
      | some q => .ok (.float q)
      | none => .error (.valueError ("Unable to parse string " ++ s))
  | .datetime _ => .error (.typeError "Invalid object type")

/-- Value-class tests used by the downcast policy. -/
def isIntVal : PyVal → Bool
  | .int _ => true
  | _ => false

/-- Bool-class test (used by dtype inference). -/
def isBoolVal : PyVal → Bool
  | .bool _ => true
  | _ => false

/-- Float-class test. -/
def isFloatVal : PyVal → Bool
  | .float _ => true
  | _ => false

/-- NaN test. -/
def isNanVal : PyVal → Bool
  | .nan => true
  | _ => false

/-- None test. -/
def isNullVal : PyVal → Bool
  | .null => true
  | _ => false

/-- A numeric value with no fractional part (an int, or a float that is a
whole number): eligible for the `downcast="integer"` narrowing. -/
def isIntegralVal : PyVal → Bool
  | .int _ => true
  | .float q => q.den == 1
  | _ => false

/-- Cast an integer value to float form (float64 common type). -/
def floatify : PyVal → PyVal
  | .int n => .float (n : ℚ)
  | v => v

/-- Cast a whole-number float to int form (exact when `isIntegralVal`). -/
def toIntCast : PyVal → PyVal
  | .float q => .int q.num
  | v => v

/-- Does an integer value fit a signed width-`w` integer dtype? -/
def intFitsWidth (w : Nat) : PyVal → Bool
  | .int n => decide (-(2 ^ (w - 1) : Int) ≤ n) && decide (n < (2 ^ (w - 1) : Int))
  | _ => false

/-- The smallest signed integer dtype holding every value
(`downcast="integer"`).  Values beyond 64 bits keep the `int64` label with
their exact value — Python's arbitrary-precision overflow behaviour is not
narrowed further by this model. -/
def smallestIntDtype (vs : List PyVal) : Dtype :=
  if vs.all (intFitsWidth 8) then .int8
  else if vs.all (intFitsWidth 16) then .int16
  else if vs.all (intFitsWidth 32) then .int32
  else .int64

/-- Is a post-`toNumericVal` value exactly representable in `float32`
(NaN casts freely)? -/
def f32OkVal : PyVal → Bool
  | .nan => true
  | .int n => f32ExactQ (n : ℚ)
  | .float q => f32ExactQ q
  | _ => false

/-- Is a post-`toNumericVal` value exactly representable in `float64`? -/
def f64OkVal : PyVal → Bool
  | .nan => true
  | .int n => f64ExactQ (n : ℚ)
  | .float q => f64ExactQ q
  | _ => false

/-- The two `downcast` modes `convert_types` uses. -/
inductive Downcast where
  | integer | float
deriving DecidableEq, Repr

/-- The dtype-selection step of `pd.to_numeric(..., downcast=...)` applied
to already-numeric values: `integer` narrows all-integral data to the
smallest signed width (NaN forces float64); `float` narrows to `float32`
when every value is exactly representable there, else `float64`, keeping
`int64` for integer data too wide for an exact float. -/
def downcastValues (dc : Downcast) (vs : List PyVal) : Series :=
  match dc with
  | .integer =>
    if vs.all isIntVal then ⟨smallestIntDtype vs, vs⟩
    else if vs.all isIntegralVal then
      ⟨smallestIntDtype (vs.map toIntCast), vs.map toIntCast⟩
    else ⟨.float64, vs.map floatify⟩
  | .float =>
    if vs.all isIntVal then
      if vs.all f32OkVal then ⟨.float32, vs.map floatify⟩
      else if vs.all f64OkVal then ⟨.float64, vs.map floatify⟩
      else ⟨.int64, vs⟩
    else if vs.all f32OkVal then ⟨.float32, vs.map floatify⟩
    else ⟨.float64, vs.map floatify⟩

/-- `pd.to_numeric(series, downcast=...)` as called by `convert_types`. -/
def to_numeric (dc : Downcast) (s : Series) : Except PyErr Series := do
  let vs ← mapExcept toNumericVal s.values
  .ok (downcastValues dc vs)

/-- Per-value step of `pd.to_datetime`: datetimes pass through, text is
parsed (the wire emits ISO-8601, modelled by `fromisoformat`), missing
data becomes NaT (modelled as `null`).  Numeric epoch inputs are outside
the wire format and not modelled. -/
def toDatetimeVal : PyVal → Except PyErr PyVal
  | .datetime d => .ok (.datetime d)
  | .str s => (fromisoformat s).map .datetime
  | .null => .ok .null
  | .nan => .ok .null
  | _ => .error (.typeError "to_datetime argument")

/-- `series.astype(str)`: every value is rendered through `str()`. -/
def astypeStr (s : Series) : Series :=
  ⟨.object, s.values.map (fun v => .str (pyStr v))⟩

/-- The per-column body of `convert_types` in `db_types.py`: dispatch on
the declared type tag; tags outside the listed families leave the column
untouched. -/
def convert_types_col (typ : String) (s : Series) : Except PyErr Series :=
  if typ == "TIMESTAMP" then do
    let vs ← mapExcept toDatetimeVal s.values
    .ok ⟨.datetime64, vs⟩
  else if typ == "BOOLEAN" || typ == "BYTE" || typ == "SHORT" || typ == "INT" || typ == "LONG" then
    to_numeric .integer s
  else if typ == "FLOAT" || typ == "DOUBLE" then
    to_numeric .float s
  else if typ == "STRING" then
    .ok (astypeStr s)
  else
    .ok s

/-- The tabular frame the pipeline builds: ordered column labels with
dtypes, row-major data, and the index (pandas `RangeIndex` at construction,
possibly replaced by `set_index`). -/
structure DataFrame where
  colNames : List String
  dtypes : List Dtype
  index : List PyVal
  indexName : Option String
  rows : List (List PyVal)
deriving DecidableEq, Repr

/-- Column values at position `j` (rows are rectangular in every frame the
pipeline builds; short rows read as missing). -/
def getColValues (df : DataFrame) (j : Nat) : List PyVal :=
  df.rows.map (fun r => r.getD j .null)

/-- Replace column `j`'s values. -/
def setColValues (df : DataFrame) (j : Nat) (vs : List PyVal) : List (List PyVal) :=
  (df.rows.zip vs).map (fun p => p.1.set j p.2)

/-- Positions of a label in the column list. -/
def colPositions (df : DataFrame) (name : String) : List Nat :=
  (df.colNames.enum.filter (fun p => p.2 == name)).map (fun p => p.1)

/-- One iteration of the `for col in columns` loop of `convert_types`:
`df[col.name] = ...` on the single column with that label.  A missing
label raises `KeyError`; duplicate labels make `df[name]` a sub-frame on
which the per-column conversions fail, modelled as an error. -/
def convert_types_step (df : DataFrame) (c : QuestDBColumn) : Except PyErr DataFrame :=
  match colPositions df c.name with
  | [] => .error (.keyError c.name)
  | [j] => do
    let s ← convert_types_col c.type ⟨df.dtypes.getD j .object, getColValues df j⟩
    .ok { df with dtypes := df.dtypes.set j s.dtype, rows := setColValues df j s.values }
  | _ => .error (.valueError ("duplicate column label " ++ c.name))

/-- `convert_types(df, columns)` from `db_types.py`: the column loop. -/
def convert_types (df : DataFrame) : List QuestDBColumn → Except PyErr DataFrame
  | [] => .ok df
  | c :: rest => do
    let df2 ← convert_types_step df c
    convert_types df2 rest

/-- Construction-time dtype inference (label only: pandas' accompanying
value coercion, e.g. None→NaN in float64 columns, is not modelled because
`convert_types` recomputes every converted column from the raw values). -/
def inferDtype (vs : List PyVal) : Dtype :=
  if vs.isEmpty then .object
  else if vs.all isBoolVal then .boolD
  else if vs.all isIntVal then .int64
  else if vs.all (fun v => isIntVal v || isFloatVal v || isNanVal v || isNullVal v) then .float64
  else .object

/-- `pd.DataFrame(dataset, columns=names)`: rows of unequal length are
padded with NaN up to the widest row; a width different from the number of
labels raises; the index is a fresh `RangeIndex`. -/
def pd_DataFrame (dataset : List (List PyVal)) (names : List String) :
    Except PyErr DataFrame :=
  if dataset.isEmpty then
    .ok ⟨names, names.map (fun _ => .object), [], none, []⟩
  else
    let w := (dataset.map List.length).foldl max 0
    if w == names.length then
      let rows := dataset.map (fun r => r ++ List.replicate (w - r.length) PyVal.nan)
      let dtypes := (List.range w).map (fun j => inferDtype (rows.map (fun r => r.getD j .null)))
      .ok ⟨names, dtypes, (List.range dataset.length).map (fun i => PyVal.int i), none, rows⟩
    else .error (.valueError "columns passed, passed data had different width")

/-- Mixed-radix encoding of a datetime's calendar fields: order-isomorphic
to chronological order for the uniform-offset datetimes the pipeline
produces (the wire emits UTC `Z` timestamps only, so the offset itself is
disregarded by the key). -/
def dtKeyNum (d : PyDatetime) : ℚ :=
  ((((((((d.year : Int) * 13 + d.month) * 32 + d.day) * 24 + d.hour) * 60 +
      d.minute) * 60 + d.second) * 1000000 + d.microsecond : Int) : ℚ)

/-- Build a lexicographic sort key. -/
def mkKey (a : Nat) (b : ℚ) : Nat ×ₗ ℚ :=
  toLex (a, b)

/-- The ordering key `sort_index` compares index entries by: missing data
ranks bottom (so descending order places it last, pandas'
`na_position="last"`), numbers and bools compare numerically, datetimes
chronologically.  String index labels all rank equal under this key: the
pipeline's designated index is always the converted TIMESTAMP column, so
pandas' lexicographic ordering of string indexes is never exercised and is
abstracted here. -/
def idxKey : PyVal → Nat ×ₗ ℚ
  | .null => mkKey 0 0
  | .nan => mkKey 0 0
  | .bool b => mkKey 2 (if b then 1 else 0)
  | .int n => mkKey 2 (n : ℚ)
  | .float q => mkKey 2 q
  | .str _ => mkKey 3 0
  | .datetime d => mkKey 4 (dtKeyNum d)

/-- An index-paired, position-tagged row, as sorted by `sort_index`. -/
abbrev SRow := Nat × (PyVal × List PyVal)

/-- The comparison used by the sort model: strictly larger keys first; equal
keys are tie-broken by original position only to make the relation total, so
that `List.insertionSort` applies.  Pandas' `sort_index` default
`kind="quicksort"` gives no tie-order guarantee, so theorems about the
pipeline never rely on this tie-break: they assert only properties that hold
for every non-increasing rearrangement (pairwise order and permutation). -/
def descRel (p q : SRow) : Prop :=
  idxKey q.2.1 < idxKey p.2.1 ∨ (idxKey p.2.1 = idxKey q.2.1 ∧ p.1 ≤ q.1)

instance : DecidableRel descRel := fun p q =>
  inferInstanceAs (Decidable (idxKey q.2.1 < idxKey p.2.1 ∨
    (idxKey p.2.1 = idxKey q.2.1 ∧ p.1 ≤ q.1)))

/-- `df.sort_index(ascending=False, inplace=True)`: reorder rows together
with the index, non-increasing by key.  The source call uses pandas'
default `kind="quicksort"`, which does not guarantee the relative order of
tied keys; an executable model has to pick some concrete order, and this
one uses `List.insertionSort`, but that choice of tie order is an artifact
of the model, not a guarantee of the program, and no theorem below asserts
it. -/
def sort_index_desc (df : DataFrame) : DataFrame :=
  let sorted := List.insertionSort descRel (df.index.zip df.rows).enum
  { df with index := sorted.map (fun p => p.2.1), rows := sorted.map (fun p => p.2.2) }

/-- `df.set_index(name, inplace=True)`: remove the (single) column with
that label from the column set and install its values as the index.  A
missing label raises `KeyError`; a duplicated label cannot be extracted as
a single column. -/
def set_index (df : DataFrame) (name : String) : Except PyErr DataFrame :=
  match colPositions df name with
  | [j] => .ok { colNames := df.colNames.eraseIdx j
                 dtypes := df.dtypes.eraseIdx j
                 index := getColValues df j
                 indexName := some name
                 rows := df.rows.map (fun r => r.eraseIdx j) }
  | [] => .error (.keyError name)
  | _ => .error (.valueError ("duplicate column label " ++ name))

/-- `QuestDB.query_df` from the decoded response onward: build the frame,
convert column types, then
`timestamp_col = next((col.name for col in data.columns if col.type == "TIMESTAMP"), None)`
and, under Python truthiness of that name (`if timestamp_col:`), set it as
the index and sort descending. -/
def query_df (resp : QuestDBResponse) : Except PyErr DataFrame := do
  let df ← pd_DataFrame resp.dataset (resp.columns.map (fun c => c.name))
  let df ← convert_types df resp.columns
  match (resp.columns.find? (fun c => c.type == "TIMESTAMP")).map (fun c => c.name) with
  | some tname =>
    if tname ≠ "" then do
      let df ← set_index df tname
      .ok (sort_index_desc df)
    else .ok df
  | none => .ok df

/-- `QuestDB.query_df_sync` from the decoded response onward: a verbatim
duplicate of the `query_df` body in the source (they differ only in how the
bytes are fetched). -/
def query_df_sync (resp : QuestDBResponse) : Except PyErr DataFrame := do
  let df ← pd_DataFrame resp.dataset (resp.columns.map (fun c => c.name))
  let df ← convert_types df resp.columns
  match (resp.columns.find? (fun c => c.type == "TIMESTAMP")).map (fun c => c.name) with
  | some tname =>
    if tname ≠ "" then do
      let df ← set_index df tname
      .ok (sort_index_desc df)
    else .ok df
  | none => .ok df

/-- Values of numeric kind (the only values `toNumericVal` can return). -/
def isNumericVal (v : PyVal) : Bool := isIntVal v || isFloatVal v || isNanVal v

/-- Apply a positional selection: element `i` of the result is
`xs[σ[i]]`.  With `σ` a permutation of `range xs.length`, this permutes
`xs`. -/
def permuteBy (σ : List Nat) (xs : List α) : List α :=
  σ.filterMap (fun i => xs.get? i)

instance : IsTotal SRow descRel := ⟨by
  intro p q
  unfold descRel
  rcases lt_trichotomy (idxKey p.2.1) (idxKey q.2.1) with h | h | h
  · right
    left
    exact h
  · rcases Nat.le_total p.1 q.1 with hn | hn
    · exact Or.inl (Or.inr ⟨h, hn⟩)
    · exact Or.inr (Or.inr ⟨h.symm, hn⟩)
  · left
    left
    exact h⟩

instance : IsTrans SRow descRel := ⟨by
  intro a b c hab hbc
  unfold descRel at hab hbc ⊢
  rcases hab with h1 | ⟨e1, l1⟩ <;> rcases hbc with h2 | ⟨e2, l2⟩
  · exact Or.inl (lt_trans h2 h1)
  · left
    rw [← e2]
    exact h1
  · left
    rw [e1]
    exact h2
  · exact Or.inr ⟨e1.trans e2, le_trans l1 l2⟩⟩

/- ------------------------------------------------------------------ -/
/- Theorems.                                                          -/
/- ------------------------------------------------------------------ -/

theorem reYield_eq_id (l : List α) : reYield l = l := by
  induction l with
  | nil => rfl
  | cons x xs ih => simp [reYield, ih]

/-- C1: for every decoded response (and caller-supplied record shape), the
asynchronous row path `query` and the synchronous row path `query_sync`
produce identical typed records, and the asynchronous table path `query_df`
and the synchronous table path `query_df_sync` produce identical tables. -/
theorem sync_async_paths_agree :
    (∀ (T : Type) (intoType : Option (PyDict → Except PyErr T)) (resp : QuestDBResponse),
        query_rows T intoType resp = query_sync_rows T intoType resp) ∧
    (∀ resp : QuestDBResponse, query_df resp = query_df_sync resp) := by
  constructor
  · intro T intoType resp
    unfold query_rows query_sync_rows
    cases h : parse_and_yield_into T intoType resp with
    | error e => simp [Except.map]
    | ok l => simp [Except.map, reYield_eq_id]
  · intro resp
    rfl

/-- C10: the query URL built by the constructor hardcodes port 9000 — it is
independent of the `port` argument, which reaches only the write-path
`Sender`; both query paths issue requests against that URL. -/
theorem query_url_ignores_port_argument :
    ∀ (host : String) (port : Int),
      (questdb_init host port).url = "http://" ++ host ++ ":9000" ∧
      execEndpoint (questdb_init host port) = "http://" ++ host ++ ":9000" ++ "/exec" ∧
      (questdb_init host port).senderPort = port ∧
      ∀ port2 : Int, (questdb_init host port).url = (questdb_init host port2).url := by
  intro host port
  have hurl : (questdb_init host port).url = "http://" ++ host ++ ":9000" := by
    show "http://" ++ host ++ ":" ++ toString (9000 : Nat) = "http://" ++ host ++ ":9000"
    rw [String.append_assoc]
    rfl
  exact ⟨hurl, by rw [execEndpoint, hurl], rfl, fun _ => rfl⟩

/-- C5: for every declared type registered in `TYPE_MAP`, coercing a null
raw cell yields null; the null test precedes the conversion call, so no
converter is ever applied to a null cell. -/
theorem null_cell_coerces_to_null :
    (∀ (t : String) (f : PyVal → Except PyErr PyVal),
        TYPE_MAP t = some f → cellConvert f PyVal.null = .ok PyVal.null) ∧
    (∀ f : PyVal → Except PyErr PyVal, cellConvert f PyVal.null = .ok PyVal.null) :=
  ⟨fun _ _ _ => rfl, fun _ => rfl⟩

theorem null_cell_coerces_to_null_witness :
    TYPE_MAP "LONG" = some intConv ∧ cellConvert intConv PyVal.null = .ok PyVal.null :=
  ⟨rfl, null_cell_coerces_to_null.1 "LONG" intConv rfl⟩

/-- C7 counterexample: coercion under SYMBOL is not the identity on every
non-null raw cell — a boolean wire value is rendered to the text "True"
by the `str` constructor registered in `TYPE_MAP`. -/
theorem symbol_coercion_renders_bool :
    coerceCell "SYMBOL" (PyVal.bool true) = .ok (.str "True") ∧
    PyVal.str "True" ≠ PyVal.bool true := ⟨rfl, by decide⟩

/-- C7 amended: coercion under SYMBOL, VARCHAR, BOOLEAN, LONG and DOUBLE is
the identity on non-null raw cells whose wire type matches the declared
type (text under SYMBOL/VARCHAR, booleans under BOOLEAN, integers under
LONG, floats under DOUBLE); mismatched wire types are converted by the
corresponding Python constructor rather than passed through. -/
theorem matching_wire_type_coercion_is_identity :
    (∀ s : String, coerceCell "SYMBOL" (.str s) = .ok (.str s)) ∧
    (∀ s : String, coerceCell "VARCHAR" (.str s) = .ok (.str s)) ∧
    (∀ b : Bool, coerceCell "BOOLEAN" (.bool b) = .ok (.bool b)) ∧
    (∀ n : Int, coerceCell "LONG" (.int n) = .ok (.int n)) ∧
    (∀ q : ℚ, coerceCell "DOUBLE" (.float q) = .ok (.float q)) :=
  ⟨fun _ => rfl, fun _ => rfl, fun _ => rfl, fun _ => rfl, fun _ => rfl⟩

/-- C8 counterexample: a TIMESTAMP cell whose text is valid ISO-8601 but
carries no UTC offset parses successfully to a naive (not timezone-aware)
datetime — the claim that coercion always returns a timezone-aware value
fails. -/
theorem offsetless_timestamp_parses_naive :
    coerceCell "TIMESTAMP" (.str "2023-08-14T12:00:00") =
      .ok (.datetime ⟨2023, 8, 14, 12, 0, 0, 0, none⟩) ∧
    (⟨2023, 8, 14, 12, 0, 0, 0, none⟩ : PyDatetime).tz = none := by
  exact ⟨by decide, rfl⟩

/-- C8 amended: TIMESTAMP coercion parses ISO-8601 text (the wire's
`Z`-suffixed form yields an aware UTC value), and on any text it either
succeeds with a datetime or fails with `InvalidTimestamp` — it never
substitutes a sentinel value. -/
theorem timestamp_coercion_parses_or_fails :
    (coerceCell "TIMESTAMP" (.str "2023-08-14T12:00:00.000000Z") =
      .ok (.datetime ⟨2023, 8, 14, 12, 0, 0, 0, some 0⟩)) ∧
    (∀ s : String,
      (∃ d : PyDatetime, coerceCell "TIMESTAMP" (.str s) = .ok (.datetime d)) ∨
      coerceCell "TIMESTAMP" (.str s) = .error (.invalidTimestamp s)) := by
  constructor
  · decide
  · intro s
    have hc : coerceCell "TIMESTAMP" (.str s) = (fromisoformat s).map .datetime := rfl
    cases h : parseIsoChars s.toList with
    | some d =>
      left
      exact ⟨d, by rw [hc]; unfold fromisoformat; rw [h]; rfl⟩
    | none =>
      right
      rw [hc]
      unfold fromisoformat
      rw [h]
      rfl

theorem ok_bind (a : α) (f : α → Except PyErr β) :
    (Except.ok a >>= f : Except PyErr β) = f a := rfl

theorem error_bind (e : PyErr) (f : α → Except PyErr β) :
    (Except.error e >>= f : Except PyErr β) = .error e := rfl

theorem convertersFor_error_of_find :
    ∀ (cols : List QuestDBColumn) (c : QuestDBColumn),
      cols.find? (fun x => (TYPE_MAP x.type).isNone) = some c →
      convertersFor cols = .error (.unknownColumnType c.type) := by
  intro cols
  induction cols with
  | nil =>
    intro c h
    simp [List.find?] at h
  | cons a l ih =>
    intro c h
    show mapExcept _ (a :: l) = _
    simp only [List.find?] at h
    cases hm : TYPE_MAP a.type with
    | none =>
      rw [hm] at h
      simp only [Option.isNone_none, cond_true] at h
      cases h
      simp only [mapExcept, hm]
      rfl
    | some g =>
      rw [hm] at h
      simp only [Option.isNone_some, cond_false] at h
      have ihl : mapExcept
          (fun x => match TYPE_MAP x.type with
            | some f => Except.ok f
            | none => Except.error (.unknownColumnType x.type)) l =
          .error (.unknownColumnType c.type) := ih c h
      simp only [mapExcept, hm, ok_bind, ihl, error_bind]

/-- C6: if some declared column type has no `TYPE_MAP` entry, the row
materializer fails with `UnknownColumnType` for the first such column
before producing any row — the error is independent of the dataset, so no
per-cell conversion is ever attempted and no default coercion is
substituted. -/
theorem unknown_type_fails_before_any_row :
    ∀ (resp : QuestDBResponse) (c : QuestDBColumn),
      resp.columns.find? (fun x => (TYPE_MAP x.type).isNone) = some c →
      ∀ ds : List (List PyVal),
        parse_and_yield_query_response { resp with dataset := ds } =
          .error (.unknownColumnType c.type) := by
  intro resp c h ds
  show (convertersFor resp.columns >>= _) = _
  rw [convertersFor_error_of_find resp.columns c h, error_bind]

theorem unknown_type_fails_before_any_row_witness :
    (([⟨"g", "GEOHASH"⟩] : List QuestDBColumn).find?
        (fun x => (TYPE_MAP x.type).isNone) = some ⟨"g", "GEOHASH"⟩) ∧
    parse_and_yield_query_response ⟨"q", [⟨"g", "GEOHASH"⟩], 0, [[.int 1]], 1⟩ =
      .error (.unknownColumnType "GEOHASH") :=
  ⟨by decide,
   unknown_type_fails_before_any_row ⟨"q", [⟨"g", "GEOHASH"⟩], 0, [], 1⟩
     ⟨"g", "GEOHASH"⟩ (by decide) [[.int 1]]⟩

/-- C2 counterexample: a response whose two-column schema is paired with a
one-cell row decodes successfully — `parse_query_response` does not fail
with `MalformedResponse` on a dataset whose row lengths are inconsistent
with the column count. -/
theorem decode_accepts_ragged_dataset :
    parse_query_response
      (.obj [("query", .str "q"),
             ("columns", .arr [.obj [("name", .str "a"), ("type", .str "LONG")],
                               .obj [("name", .str "b"), ("type", .str "LONG")]]),
             ("timestamp", .int 0),
             ("dataset", .arr [.arr [.int 1]]),
             ("count", .int 1)]) =
      .ok ⟨"q", [⟨"a", "LONG"⟩, ⟨"b", "LONG"⟩], 0, [[.int 1]], 1⟩ ∧
    ([PyVal.int 1] : List PyVal).length ≠
      ([⟨"a", "LONG"⟩, ⟨"b", "LONG"⟩] : List QuestDBColumn).length :=
  ⟨by decide, by decide⟩

theorem decodeColumn_encodeColumn (c : QuestDBColumn) :
    decodeColumn (encodeColumn c) = .ok c := rfl

theorem decodeCell_encodeCell (v : PyVal) (h : isWireCell v = true) :
    decodeCell (encodeCell v) = .ok v := by
  cases v <;> first
    | rfl
    | simp [isWireCell] at h

theorem mapExcept_roundtrip (enc : β → α) (dec : α → Except PyErr β) (l : List β)
    (h : ∀ x ∈ l, dec (enc x) = .ok x) : mapExcept dec (l.map enc) = .ok l := by
  induction l with
  | nil => rfl
  | cons x xs ih =>
    simp only [List.map_cons, mapExcept]
    rw [h x (List.mem_cons_self x xs), ok_bind,
        ih (fun y hy => h y (List.mem_cons_of_mem x hy)), ok_bind]

/-- C2 amended: decoding checks only the structural shape (the five
required fields with their strict scalar/array types).  It never compares
row lengths with the column count: any `QuestDBResponse` value — including
one whose rows are shorter or longer than `columns` — round-trips through
the wire layout and decodes successfully, so a length mismatch is not a
decode-time error.  (Downstream, the row materializer zips columns against
cells, silently truncating to the shorter; see the positional-integrity
analysis.) -/
theorem decode_checks_shape_not_row_lengths :
    ∀ resp : QuestDBResponse, wireCells resp →
      parse_query_response (encodeResponse resp) = .ok resp := by
  intro resp hw
  have hcols : mapExcept decodeColumn (resp.columns.map encodeColumn) = .ok resp.columns :=
    mapExcept_roundtrip _ _ _ (fun c _ => decodeColumn_encodeColumn c)
  have hds : mapExcept decodeRow
      (resp.dataset.map (fun row => Json.arr (row.map encodeCell))) = .ok resp.dataset :=
    mapExcept_roundtrip _ _ _ (fun row hrow =>
      mapExcept_roundtrip _ _ _ (fun v hv => decodeCell_encodeCell v (hw row hrow v hv)))
  show (mapExcept decodeColumn (resp.columns.map encodeColumn) >>= fun cols =>
      mapExcept decodeRow (resp.dataset.map (fun row => Json.arr (row.map encodeCell))) >>=
        fun ds => Except.ok ⟨resp.query, cols, resp.timestamp, ds, resp.count⟩) =
      Except.ok resp
  rw [hcols, ok_bind, hds, ok_bind]

theorem decode_checks_shape_not_row_lengths_witness :
    wireCells ⟨"q", [⟨"a", "LONG"⟩, ⟨"b", "LONG"⟩], 0, [[.int 1]], 1⟩ ∧
    parse_query_response
        (encodeResponse ⟨"q", [⟨"a", "LONG"⟩, ⟨"b", "LONG"⟩], 0, [[.int 1]], 1⟩) =
      .ok ⟨"q", [⟨"a", "LONG"⟩, ⟨"b", "LONG"⟩], 0, [[.int 1]], 1⟩ :=
  ⟨by decide, decode_checks_shape_not_row_lengths _ (by decide)⟩

theorem toDatetimeVal_fix (v w : PyVal) (h : toDatetimeVal v = .ok w) :
    toDatetimeVal w = .ok w := by
  cases v <;> simp only [toDatetimeVal] at h
  case null => cases h; rfl
  case nan => cases h; rfl
  case bool b => exact absurd h (by simp)
  case int n => exact absurd h (by simp)
  case float q => exact absurd h (by simp)
  case str s =>
    cases hf : fromisoformat s with
    | ok d =>
      rw [hf] at h
      cases h
      rfl
    | error e =>
      rw [hf] at h
      exact absurd h (by simp [Except.map])
  case datetime d => cases h; rfl

theorem mapExcept_of_fixed (f : α → Except PyErr α) :
    ∀ l : List α, (∀ v ∈ l, f v = .ok v) → mapExcept f l = .ok l := by
  intro l
  induction l with
  | nil => intro _; rfl
  | cons a t ih =>
    intro h
    simp only [mapExcept]
    rw [h a (List.mem_cons_self a t), ok_bind,
        ih (fun v hv => h v (List.mem_cons_of_mem a hv)), ok_bind]

theorem mapExcept_ok_out (f : α → Except PyErr β) :
    ∀ (l : List α) (l2 : List β), mapExcept f l = .ok l2 →
      ∀ y ∈ l2, ∃ x, f x = .ok y := by
  intro l
  induction l with
  | nil =>
    intro l2 h y hy
    simp only [mapExcept] at h
    cases h
    simp at hy
  | cons a t ih =>
    intro l2 h y hy
    simp only [mapExcept] at h
    cases hb : f a with
    | error e => rw [hb, error_bind] at h; exact absurd h (by simp)
    | ok b =>
      rw [hb, ok_bind] at h
      cases hbs : mapExcept f t with
      | error e => rw [hbs, error_bind] at h; exact absurd h (by simp)
      | ok bs =>
        rw [hbs, ok_bind] at h
        cases h
        rcases List.mem_cons.mp hy with hy | hy
        · exact ⟨a, hy ▸ hb⟩
        · exact ih bs hbs y hy

theorem mapExcept_fix (f : PyVal → Except PyErr PyVal)
    (hf : ∀ v w, f v = .ok w → f w = .ok w) :
    ∀ l l2, mapExcept f l = .ok l2 → mapExcept f l2 = .ok l2 := by
  intro l l2 h
  refine mapExcept_of_fixed f l2 (fun v hv => ?_)
  obtain ⟨x, hx⟩ := mapExcept_ok_out f l l2 h v hv
  exact hf x v hx

theorem toNumericVal_ok_numeric (v w : PyVal) (h : toNumericVal v = .ok w) :
    isNumericVal w = true := by
  cases v <;> simp only [toNumericVal] at h
  case null => cases h; rfl
  case nan => cases h; rfl
  case bool b => cases h; rfl
  case int n => cases h; rfl
  case float q => cases h; rfl
  case str s =>
    cases hi : parseIntText s with
    | some n => rw [hi] at h; cases h; rfl
    | none =>
      rw [hi] at h
      cases hq : parseFloatText s with
      | some q => rw [hq] at h; cases h; rfl
      | none => rw [hq] at h; exact absurd h (by simp)
  case datetime d => exact absurd h (by simp)

theorem toNumericVal_numeric_fix (v : PyVal) (h : isNumericVal v = true) :
    toNumericVal v = .ok v := by
  cases v <;> first
    | rfl
    | simp [isNumericVal, isIntVal, isFloatVal, isNanVal] at h

theorem floatify_idem (v : PyVal) : floatify (floatify v) = floatify v := by
  cases v <;> rfl

theorem map_floatify_map_floatify (vs : List PyVal) :
    (vs.map floatify).map floatify = vs.map floatify := by
  rw [List.map_map]
  exact List.map_congr_left (fun v _ => floatify_idem v)

theorem isIntVal_floatify (v : PyVal) : isIntVal (floatify v) = false := by
  cases v <;> rfl

theorem f32OkVal_floatify (v : PyVal) : f32OkVal (floatify v) = f32OkVal v := by
  cases v <;> rfl

theorem numeric_floatify (v : PyVal) (h : isNumericVal v = true) :
    isNumericVal (floatify v) = true := by
  cases v <;> simp_all [isNumericVal, isIntVal, isFloatVal, isNanVal, floatify]

theorem list_all_congr {α : Type} (l : List α) (p q : α → Bool)
    (h : ∀ x ∈ l, p x = q x) : l.all p = l.all q := by
  induction l with
  | nil => rfl
  | cons a t ih =>
    simp only [List.all_cons, h a (List.mem_cons_self a t),
      ih (fun x hx => h x (List.mem_cons_of_mem a hx))]

theorem all_map_floatify_f32 (vs : List PyVal) :
    (vs.map floatify).all f32OkVal = vs.all f32OkVal := by
  rw [List.all_map]
  exact list_all_congr vs _ _ (fun v _ => f32OkVal_floatify v)

theorem intCast_of_integral (v : PyVal) (h : isIntegralVal v = true) :
    isIntVal (toIntCast v) = true := by
  cases v <;> simp_all [isIntegralVal, toIntCast, isIntVal]

theorem integral_not_floatify_int (v : PyVal) (hnum : isNumericVal v = true)
    (h : isIntegralVal v = false) :
    floatify v = v ∧ isIntVal v = false ∧ isIntegralVal v = false ∧
      isNumericVal v = true := by
  cases v <;> simp_all [isNumericVal, isIntVal, isFloatVal, isNanVal,
    isIntegralVal, floatify]

theorem f64OkVal_floatify (v : PyVal) : f64OkVal (floatify v) = f64OkVal v := by
  cases v <;> rfl

theorem all_map_floatify_f64 (vs : List PyVal) :
    (vs.map floatify).all f64OkVal = vs.all f64OkVal := by
  rw [List.all_map]
  exact list_all_congr vs _ _ (fun v _ => f64OkVal_floatify v)

theorem intVal_numeric (v : PyVal) (h : isIntVal v = true) : isNumericVal v = true := by
  cases v <;> simp_all [isIntVal, isNumericVal]

theorem nonint_numeric_floatify_id (v : PyVal) (hnum : isNumericVal v = true)
    (h : isIntVal v = false) : floatify v = v := by
  cases v <;> simp_all [isNumericVal, isIntVal, isFloatVal, isNanVal, floatify]

theorem all_false_of_mem {α : Type} {l : List α} {p : α → Bool} {x : α}
    (hx : x ∈ l) (hpx : p x = false) : ¬ l.all p = true := by
  intro hall
  rw [List.all_eq_true] at hall
  rw [hall x hx] at hpx
  cases hpx

theorem downcastValues_fix (dc : Downcast) (vs : List PyVal)
    (hnum : ∀ v ∈ vs, isNumericVal v = true) :
    (∀ w ∈ (downcastValues dc vs).values, isNumericVal w = true) ∧
    downcastValues dc (downcastValues dc vs).values = downcastValues dc vs := by
  have hnumf : ∀ w ∈ vs.map floatify, isNumericVal w = true := by
    intro w hw
    rcases List.mem_map.mp hw with ⟨v, hv, rfl⟩
    exact numeric_floatify v (hnum v hv)
  cases dc with
  | integer =>
    by_cases hA : vs.all isIntVal = true
    · simp only [downcastValues, if_pos hA]
      exact ⟨hnum, by simp only [downcastValues, if_pos hA]⟩
    · by_cases hB : vs.all isIntegralVal = true
      · have hws : (vs.map toIntCast).all isIntVal = true := by
          rw [List.all_map, List.all_eq_true]
          intro v hv
          exact intCast_of_integral v (List.all_eq_true.mp hB v hv)
        simp only [downcastValues, if_neg hA, if_pos hB]
        constructor
        · intro w hw
          exact intVal_numeric w (List.all_eq_true.mp hws w hw)
        · simp only [downcastValues, if_pos hws]
      · have hex : ∃ v ∈ vs, ¬ isIntegralVal v = true := by
          by_contra hc
          push_neg at hc
          exact hB (List.all_eq_true.mpr hc)
        obtain ⟨v0, hv0, hpv0⟩ := hex
        simp only [Bool.not_eq_true] at hpv0
        obtain ⟨hfix0, hint0, hintg0, hnum0⟩ :=
          integral_not_floatify_int v0 (hnum v0 hv0) hpv0
        have hv0w : v0 ∈ vs.map floatify := by
          rw [← hfix0]
          exact List.mem_map_of_mem floatify hv0
        have hA2 := all_false_of_mem hv0w hint0
        have hB2 := all_false_of_mem hv0w hintg0
        simp only [downcastValues, if_neg hA, if_neg hB]
        refine ⟨hnumf, ?_⟩
        simp only [downcastValues, if_neg hA2, if_neg hB2,
          map_floatify_map_floatify]
  | float =>
    by_cases hA : vs.all isIntVal = true
    · by_cases h32 : vs.all f32OkVal = true
      · simp only [downcastValues, if_pos hA, if_pos h32]
        refine ⟨hnumf, ?_⟩
        have h32w : (vs.map floatify).all f32OkVal = true := by
          rw [all_map_floatify_f32]; exact h32
        by_cases hA2 : (vs.map floatify).all isIntVal = true
        · simp only [downcastValues, if_pos hA2, if_pos h32w,
            map_floatify_map_floatify]
        · simp only [downcastValues, if_neg hA2, if_pos h32w,
            map_floatify_map_floatify]
      · by_cases h64 : vs.all f64OkVal = true
        · simp only [downcastValues, if_pos hA, if_neg h32, if_pos h64]
          refine ⟨hnumf, ?_⟩
          have h32w : ¬ (vs.map floatify).all f32OkVal = true := by
            rw [all_map_floatify_f32]; exact h32
          have h64w : (vs.map floatify).all f64OkVal = true := by
            rw [all_map_floatify_f64]; exact h64
          by_cases hA2 : (vs.map floatify).all isIntVal = true
          · simp only [downcastValues, if_pos hA2, if_neg h32w, if_pos h64w,
              map_floatify_map_floatify]
          · simp only [downcastValues, if_neg hA2, if_neg h32w,
              map_floatify_map_floatify]
        · simp only [downcastValues, if_pos hA, if_neg h32, if_neg h64]
          exact ⟨hnum, by simp only [downcastValues, if_pos hA, if_neg h32, if_neg h64]⟩
    · have hex : ∃ v ∈ vs, ¬ isIntVal v = true := by
        by_contra hc
        push_neg at hc
        exact hA (List.all_eq_true.mpr hc)
      obtain ⟨v0, hv0, hpv0⟩ := hex
      simp only [Bool.not_eq_true] at hpv0
      have hfix0 := nonint_numeric_floatify_id v0 (hnum v0 hv0) hpv0
      have hv0w : v0 ∈ vs.map floatify := by
        rw [← hfix0]
        exact List.mem_map_of_mem floatify hv0
      have hA2 := all_false_of_mem hv0w hpv0
      have hA1 := all_false_of_mem hv0 hpv0
      by_cases h32 : vs.all f32OkVal = true
      · simp only [downcastValues, if_neg hA1, if_pos h32]
        refine ⟨hnumf, ?_⟩
        have h32w : (vs.map floatify).all f32OkVal = true := by
          rw [all_map_floatify_f32]; exact h32
        simp only [downcastValues, if_neg hA2, if_pos h32w,
          map_floatify_map_floatify]
      · simp only [downcastValues, if_neg hA1, if_neg h32]
        refine ⟨hnumf, ?_⟩
        have h32w : ¬ (vs.map floatify).all f32OkVal = true := by
          rw [all_map_floatify_f32]; exact h32
        simp only [downcastValues, if_neg hA2, if_neg h32w,
          map_floatify_map_floatify]

theorem to_numeric_fix (dc : Downcast) (s s2 : Series)
    (h : to_numeric dc s = .ok s2) : to_numeric dc s2 = .ok s2 := by
  unfold to_numeric at h ⊢
  cases hm : mapExcept toNumericVal s.values with
  | error e => rw [hm, error_bind] at h; exact absurd h (by simp)
  | ok vs =>
    rw [hm, ok_bind] at h
    cases h
    have hnum : ∀ v ∈ vs, isNumericVal v = true := by
      intro v hv
      obtain ⟨x, hx⟩ := mapExcept_ok_out toNumericVal s.values vs hm v hv
      exact toNumericVal_ok_numeric x v hx
    obtain ⟨hnum2, hdc⟩ := downcastValues_fix dc vs hnum
    rw [mapExcept_of_fixed toNumericVal (downcastValues dc vs).values
        (fun v hv => toNumericVal_numeric_fix v (hnum2 v hv)), ok_bind, hdc]

theorem astypeStr_idem (s : Series) : astypeStr (astypeStr s) = astypeStr s := by
  unfold astypeStr
  simp only [List.map_map]
  have hc : ((fun v => PyVal.str (pyStr v)) ∘ (fun v => PyVal.str (pyStr v))) =
      (fun v : PyVal => PyVal.str (pyStr v)) := funext (fun _ => rfl)
  rw [hc]

/-- C9: re-applying the per-column narrowing step of `convert_types` to a
column it has already produced is a no-op — for every declared type
(timestamp parsing, integer narrowing, float narrowing, string casting,
and the untouched pass-through) the second application returns the column
unchanged. -/
theorem convert_types_narrowing_idempotent :
    ∀ (typ : String) (s s2 : Series),
      convert_types_col typ s = .ok s2 → convert_types_col typ s2 = .ok s2 := by
  intro typ s s2 h
  unfold convert_types_col at h ⊢
  by_cases h1 : (typ == "TIMESTAMP") = true
  · rw [if_pos h1] at h ⊢
    cases hm : mapExcept toDatetimeVal s.values with
    | error e => rw [hm, error_bind] at h; exact absurd h (by simp)
    | ok vs =>
      rw [hm, ok_bind] at h
      cases h
      rw [mapExcept_fix toDatetimeVal toDatetimeVal_fix _ _ hm, ok_bind]
  · rw [if_neg h1] at h ⊢
    by_cases h2 : (typ == "BOOLEAN" || typ == "BYTE" || typ == "SHORT" ||
        typ == "INT" || typ == "LONG") = true
    · rw [if_pos h2] at h ⊢
      exact to_numeric_fix .integer s s2 h
    · rw [if_neg h2] at h ⊢
      by_cases h3 : (typ == "FLOAT" || typ == "DOUBLE") = true
      · rw [if_pos h3] at h ⊢
        exact to_numeric_fix .float s s2 h
      · rw [if_neg h3] at h ⊢
        by_cases h4 : (typ == "STRING") = true
        · rw [if_pos h4] at h ⊢
          cases h
          rw [astypeStr_idem]
        · rw [if_neg h4] at h
          cases h
          rw [if_neg h4]

theorem convert_types_narrowing_idempotent_witness :
    convert_types_col "LONG" ⟨.object, [.int 15]⟩ = .ok ⟨.int8, [.int 15]⟩ ∧
    convert_types_col "LONG" ⟨.int8, [.int 15]⟩ = .ok ⟨.int8, [.int 15]⟩ :=
  ⟨by decide,
   convert_types_narrowing_idempotent "LONG" ⟨.object, [.int 15]⟩ ⟨.int8, [.int 15]⟩
     (by decide)⟩

theorem get_zip {α β : Type} : ∀ (l : List α) (l2 : List β) (i : Nat) (a : α) (b : β),
    l.get? i = some a → l2.get? i = some b → (l.zip l2).get? i = some (a, b) := by
  intro l
  induction l with
  | nil => intro l2 i a b h; simp at h
  | cons x xs ih =>
    intro l2 i a b h h2
    cases l2 with
    | nil => simp at h2
    | cons y ys =>
      cases i with
      | zero =>
        simp only [List.get?] at h h2
        cases h
        cases h2
        rfl
      | succ j =>
        simp only [List.get?] at h h2 ⊢
        exact ih ys j a b h h2

theorem mapExcept_ok_length (f : α → Except PyErr β) :
    ∀ (l : List α) (l2 : List β), mapExcept f l = .ok l2 → l2.length = l.length := by
  intro l
  induction l with
  | nil =>
    intro l2 h
    simp only [mapExcept] at h
    cases h
    rfl
  | cons a t ih =>
    intro l2 h
    simp only [mapExcept] at h
    cases hb : f a with
    | error e => rw [hb, error_bind] at h; exact absurd h (by simp)
    | ok b =>
      rw [hb, ok_bind] at h
      cases hbs : mapExcept f t with
      | error e => rw [hbs, error_bind] at h; exact absurd h (by simp)
      | ok bs =>
        rw [hbs, ok_bind] at h
        cases h
        simp [ih bs hbs]

theorem mapExcept_ok_get (f : α → Except PyErr β) :
    ∀ (l : List α) (l2 : List β), mapExcept f l = .ok l2 →
      ∀ (i : Nat) (x : α), l.get? i = some x →
        ∃ y, l2.get? i = some y ∧ f x = .ok y := by
  intro l
  induction l with
  | nil => intro l2 h i x hx; simp at hx
  | cons a t ih =>
    intro l2 h i x hx
    simp only [mapExcept] at h
    cases hb : f a with
    | error e => rw [hb, error_bind] at h; exact absurd h (by simp)
    | ok b =>
      rw [hb, ok_bind] at h
      cases hbs : mapExcept f t with
      | error e => rw [hbs, error_bind] at h; exact absurd h (by simp)
      | ok bs =>
        rw [hbs, ok_bind] at h
        cases h
        cases i with
        | zero =>
          simp only [List.get?] at hx ⊢
          cases hx
          exact ⟨b, rfl, hb⟩
        | succ j =>
          simp only [List.get?] at hx ⊢
          exact ih bs hbs j x hx

theorem mapExcept_ok_in (f : α → Except PyErr β) :
    ∀ (l : List α) (l2 : List β), mapExcept f l = .ok l2 →
      ∀ x ∈ l, ∃ y, f x = .ok y := by
  intro l l2 h x hx
  obtain ⟨i, hi⟩ := List.get?_of_mem hx
  obtain ⟨y, _, hy⟩ := mapExcept_ok_get f l l2 h i x hi
  exact ⟨y, hy⟩

theorem mapExcept_permuteBy (f : α → Except PyErr β) (σ : List Nat) :
    ∀ (l : List α) (l2 : List β), mapExcept f l = .ok l2 →
      (∀ i ∈ σ, i < l.length) →
      mapExcept f (permuteBy σ l) = .ok (permuteBy σ l2) := by
  induction σ with
  | nil => intro l l2 h _; rfl
  | cons i σ2 ih =>
    intro l l2 h hσ
    have hi : i < l.length := hσ i (List.mem_cons_self i σ2)
    obtain ⟨x, hx⟩ : ∃ x, l.get? i = some x := ⟨l.get ⟨i, hi⟩, List.get?_eq_get hi⟩
    obtain ⟨y, hy, hfy⟩ := mapExcept_ok_get f l l2 h i x hx
    rw [List.get?_eq_getElem?] at hx hy
    have hperm : permuteBy (i :: σ2) l = x :: permuteBy σ2 l := by
      simp [permuteBy, List.filterMap_cons, hx]
    have hperm2 : permuteBy (i :: σ2) l2 = y :: permuteBy σ2 l2 := by
      simp [permuteBy, List.filterMap_cons, hy]
    rw [hperm, hperm2]
    simp only [mapExcept]
    rw [hfy, ok_bind, ih l l2 h (fun j hj => hσ j (List.mem_cons_of_mem i hj)), ok_bind]

theorem permuteBy_map {α β : Type} (g : α → β) (σ : List Nat) (l : List α) :
    permuteBy σ (l.map g) = (permuteBy σ l).map g := by
  unfold permuteBy
  simp only [List.get?_eq_getElem?]
  induction σ with
  | nil => rfl
  | cons i σ2 ih =>
    simp only [List.filterMap_cons, List.getElem?_map]
    simp only [List.getElem?_map] at ih
    cases hx : l[i]? with
    | none => simp [hx, ih]
    | some a => simp [hx, ih]

theorem range_filterMap_get {α : Type} : ∀ l : List α,
    (List.range l.length).filterMap (fun i => l.get? i) = l := by
  intro l
  induction l with
  | nil => rfl
  | cons x xs ih =>
    rw [List.length_cons, List.range_succ_eq_map, List.filterMap_cons, List.filterMap_map]
    simp only [List.get?]
    rw [show (fun i => List.get? (x :: xs) i) ∘ Nat.succ = fun i => xs.get? i from rfl, ih]

theorem permuteBy_perm {α : Type} (σ : List Nat) (l : List α)
    (h : σ.Perm (List.range l.length)) : (permuteBy σ l).Perm l := by
  have h2 : (permuteBy σ l).Perm ((List.range l.length).filterMap (fun i => l.get? i)) :=
    List.Perm.filterMap _ h
  rwa [range_filterMap_get] at h2

theorem zip_permuteBy {α β : Type} (σ : List Nat) (as : List α) (bs : List β)
    (ha : ∀ i ∈ σ, i < as.length) (hb : ∀ i ∈ σ, i < bs.length) :
    (permuteBy σ as).zip (permuteBy σ bs) = permuteBy σ (as.zip bs) := by
  induction σ with
  | nil => rfl
  | cons i σ2 ih =>
    have hia : i < as.length := ha i (List.mem_cons_self i σ2)
    have hib : i < bs.length := hb i (List.mem_cons_self i σ2)
    obtain ⟨a, hxa⟩ : ∃ a, as.get? i = some a := ⟨as.get ⟨i, hia⟩, List.get?_eq_get hia⟩
    obtain ⟨b, hxb⟩ : ∃ b, bs.get? i = some b := ⟨bs.get ⟨i, hib⟩, List.get?_eq_get hib⟩
    have hzip := get_zip as bs i a b hxa hxb
    unfold permuteBy
    simp only [List.filterMap_cons]
    rw [hxa, hxb, hzip]
    have ih2 := ih (fun j hj => ha j (List.mem_cons_of_mem i hj))
      (fun j hj => hb j (List.mem_cons_of_mem i hj))
    unfold permuteBy at ih2
    simp only [List.zip_cons_cons, ih2]

theorem dictLookup_mem_iff :
    ∀ (d : PyDict), (d.map Prod.fst).Nodup → ∀ (k : String) (v : PyVal),
      (dictLookup d k = some v ↔ (k, v) ∈ d) := by
  intro d
  induction d with
  | nil => intro _ k v; simp [dictLookup, List.find?]
  | cons p t ih =>
    intro hnodup k v
    obtain ⟨k0, v0⟩ := p
    rw [List.map_cons, List.nodup_cons] at hnodup
    simp only [dictLookup, List.find?]
    cases hk : (k0 == k) with
    | true =>
      have hkk : k0 = k := eq_of_beq hk
      subst hkk
      simp only [Option.map_some]
      constructor
      · intro h
        cases h
        exact List.mem_cons_self _ _
      · intro h
        rcases List.mem_cons.mp h with h | h
        · cases h
          rfl
        · exact absurd (List.mem_map_of_mem Prod.fst h) hnodup.1
    | false =>
      have := ih hnodup.2 k v
      simp only [dictLookup] at this
      rw [this]
      constructor
      · exact List.mem_cons_of_mem _
      · intro h
        rcases List.mem_cons.mp h with h | h
        · cases h
          simp at hk
        · exact h

theorem dictLookup_none_iff :
    ∀ (d : PyDict) (k : String), (dictLookup d k = none ↔ k ∉ d.map Prod.fst) := by
  intro d
  induction d with
  | nil => intro k; simp [dictLookup, List.find?]
  | cons p t ih =>
    intro k
    obtain ⟨k0, v0⟩ := p
    simp only [dictLookup, List.find?, List.map_cons]
    cases hk : (k0 == k) with
    | true =>
      have hkk : k0 = k := eq_of_beq hk
      subst hkk
      simp
    | false =>
      have hrec := ih k
      simp only [dictLookup] at hrec
      rw [hrec]
      have hne : k0 ≠ k := by
        intro he
        subst he
        simp at hk
      constructor
      · intro h hc
        rcases List.mem_cons.mp hc with hc | hc
        · exact hne hc.symm
        · exact h hc
      · intro h hmem
        exact h (List.mem_cons_of_mem _ hmem)

theorem dictLookup_perm (d d2 : PyDict) (hperm : d2.Perm d)
    (hnodup : (d.map Prod.fst).Nodup) (k : String) :
    dictLookup d2 k = dictLookup d k := by
  have hnodup2 : (d2.map Prod.fst).Nodup := ((hperm.map Prod.fst).nodup_iff).mpr hnodup
  cases h : dictLookup d k with
  | some v =>
    exact (dictLookup_mem_iff d2 hnodup2 k v).mpr (hperm.mem_iff.mpr
      ((dictLookup_mem_iff d hnodup k v).mp h))
  | none =>
    cases h2 : dictLookup d2 k with
    | none => rfl
    | some v =>
      exfalso
      have hmem : (k, v) ∈ d := hperm.mem_iff.mp ((dictLookup_mem_iff d2 hnodup2 k v).mp h2)
      have := (dictLookup_none_iff d k).mp h
      exact this (List.mem_map_of_mem Prod.fst hmem)

theorem dictInsert_fresh (d : PyDict) (k : String) (v : PyVal)
    (h : ∀ p ∈ d, (p.1 == k) = false) : dictInsert d k v = d ++ [(k, v)] := by
  unfold dictInsert
  rw [if_neg]
  intro hc
  obtain ⟨p, hp, hpk⟩ := List.any_eq_true.mp hc
  rw [h p hp] at hpk
  cases hpk

theorem map_ok (f : α → β) (a : α) :
    Except.map f (Except.ok a : Except PyErr α) = .ok (f a) := rfl

theorem map_error (f : α → β) (e : PyErr) :
    Except.map f (Except.error e : Except PyErr α) = .error e := rfl

theorem convertRow_as_mapExcept :
    ∀ (triples : List ((QuestDBColumn × (PyVal → Except PyErr PyVal)) × PyVal)) (acc : PyDict),
      (∀ p ∈ acc, ∀ t ∈ triples, (p.1 == t.1.1.name) = false) →
      (triples.map (fun t => t.1.1.name)).Nodup →
      convertRow triples acc =
        (mapExcept (fun t => (cellConvert t.1.2 t.2).map (fun w => (t.1.1.name, w)))
            triples).map (fun fs => acc ++ fs) := by
  intro triples
  induction triples with
  | nil =>
    intro acc _ _
    simp [convertRow, mapExcept, Except.map]
  | cons t ts ih =>
    intro acc hfresh hnodup
    obtain ⟨⟨c, f⟩, v⟩ := t
    simp only [convertRow]
    cases hw : cellConvert f v with
    | error e =>
      rw [error_bind]
      simp only [mapExcept, hw, Except.map, error_bind]
    | ok w =>
      rw [ok_bind]
      have hfr : ∀ p ∈ acc, (p.1 == c.name) = false := fun p hp =>
        hfresh p hp _ (List.mem_cons_self _ ts)
      rw [dictInsert_fresh acc c.name w hfr]
      rw [List.map_cons, List.nodup_cons] at hnodup
      have hfresh2 : ∀ p ∈ acc ++ [(c.name, w)], ∀ t2 ∈ ts, (p.1 == t2.1.1.name) = false := by
        intro p hp t2 ht2
        rcases List.mem_append.mp hp with hp | hp
        · exact hfresh p hp t2 (List.mem_cons_of_mem _ ht2)
        · have hpe : p = (c.name, w) := by simpa using hp
          subst hpe
          have : c.name ≠ t2.1.1.name := by
            intro he
            exact hnodup.1 (he ▸ List.mem_map_of_mem (fun t => t.1.1.name) ht2)
          exact beq_eq_false_iff_ne.mpr this
      rw [ih (acc ++ [(c.name, w)]) hfresh2 hnodup.2]
      cases hts : mapExcept
          (fun t => Except.map (fun w => (t.1.1.name, w)) (cellConvert t.1.2 t.2)) ts with
      | error e =>
        simp only [mapExcept, hw, map_ok, ok_bind, hts, error_bind, map_error]
      | ok fs =>
        simp only [mapExcept, hw, map_ok, ok_bind, hts, map_ok]
        simp [List.append_assoc]

theorem convertRow_nil_acc
    (triples : List ((QuestDBColumn × (PyVal → Except PyErr PyVal)) × PyVal))
    (hnodup : (triples.map (fun t => t.1.1.name)).Nodup) :
    convertRow triples [] =
      mapExcept (fun t => (cellConvert t.1.2 t.2).map (fun w => (t.1.1.name, w))) triples := by
  rw [convertRow_as_mapExcept triples [] (fun p hp => absurd hp (List.not_mem_nil p)) hnodup]
  cases hts : mapExcept
      (fun t => (cellConvert t.1.2 t.2).map (fun w => (t.1.1.name, w))) triples with
  | error e => rfl
  | ok fs => simp [Except.map]

theorem convertersFor_rel :
    ∀ (cols : List QuestDBColumn) (convs : List (PyVal → Except PyErr PyVal)),
      convertersFor cols = .ok convs →
      ∀ (i : Nat) (c : QuestDBColumn), cols.get? i = some c →
        ∃ f, convs.get? i = some f ∧ TYPE_MAP c.type = some f := by
  intro cols convs h i c hc
  obtain ⟨f, hf, hmap⟩ := mapExcept_ok_get _ cols convs h i c hc
  cases hm : TYPE_MAP c.type with
  | none => rw [hm] at hmap; exact absurd hmap (by simp)
  | some g =>
    rw [hm] at hmap
    cases hmap
    exact ⟨f, hf, rfl⟩

theorem zip_zip_names :
    ∀ (cols : List QuestDBColumn) (convs : List (PyVal → Except PyErr PyVal))
      (row : List PyVal), convs.length = cols.length → row.length = cols.length →
      ((cols.zip convs).zip row).map (fun t => t.1.1.name) =
        cols.map (fun c => c.name) := by
  intro cols
  induction cols with
  | nil => intro convs row _ _; rfl
  | cons c cs ih =>
    intro convs row hc hr
    cases convs with
    | nil => simp at hc
    | cons f fs =>
      cases row with
      | nil => simp at hr
      | cons v vs =>
        simp only [List.length_cons, Nat.succ.injEq] at hc hr
        simp only [List.zip_cons_cons, List.map_cons, List.cons.injEq]
        exact ⟨trivial, ih fs vs hc hr⟩

theorem zip_zip_length (cols : List QuestDBColumn)
    (convs : List (PyVal → Except PyErr PyVal)) (row : List PyVal)
    (hc : convs.length = cols.length) (hr : row.length = cols.length) :
    ((cols.zip convs).zip row).length = cols.length := by
  simp [List.length_zip, hc, hr]

theorem fields_fst :
    ∀ (triples : List ((QuestDBColumn × (PyVal → Except PyErr PyVal)) × PyVal))
      (fs : List (String × PyVal)),
      mapExcept (fun t => Except.map (fun w => (t.1.1.name, w)) (cellConvert t.1.2 t.2))
          triples = .ok fs →
      fs.map Prod.fst = triples.map (fun t => t.1.1.name) := by
  intro triples
  induction triples with
  | nil =>
    intro fs h
    simp only [mapExcept] at h
    cases h
    rfl
  | cons t ts ih =>
    intro fs h
    simp only [mapExcept] at h
    cases hw : cellConvert t.1.2 t.2 with
    | error e => rw [hw, map_error, error_bind] at h; exact absurd h (by simp)
    | ok w =>
      rw [hw, map_ok, ok_bind] at h
      cases hts : mapExcept
          (fun t => Except.map (fun w => (t.1.1.name, w)) (cellConvert t.1.2 t.2)) ts with
      | error e => rw [hts, error_bind] at h; exact absurd h (by simp)
      | ok gs =>
        rw [hts, ok_bind] at h
        cases h
        simp only [List.map_cons, List.cons.injEq]
        exact ⟨trivial, ih gs hts⟩

theorem mapExcept_map_both (f1 : α → Except PyErr β) (h : α → α2)
    (f2 : α2 → Except PyErr β2) (h2 : β → β2) :
    ∀ (l : List α) (l2 : List β), mapExcept f1 l = .ok l2 →
      (∀ x ∈ l, ∀ y, f1 x = .ok y → f2 (h x) = .ok (h2 y)) →
      mapExcept f2 (l.map h) = .ok (l2.map h2) := by
  intro l
  induction l with
  | nil =>
    intro l2 hok _
    simp only [mapExcept] at hok
    cases hok
    rfl
  | cons a t ih =>
    intro l2 hok hpt
    simp only [mapExcept] at hok
    cases hb : f1 a with
    | error e => rw [hb, error_bind] at hok; exact absurd hok (by simp)
    | ok b =>
      rw [hb, ok_bind] at hok
      cases hbs : mapExcept f1 t with
      | error e => rw [hbs, error_bind] at hok; exact absurd hok (by simp)
      | ok bs =>
        rw [hbs, ok_bind] at hok
        cases hok
        simp only [List.map_cons, mapExcept]
        rw [hpt a (List.mem_cons_self a t) b hb, ok_bind,
          ih bs hbs (fun x hx => hpt x (List.mem_cons_of_mem a hx)), ok_bind]

theorem mapExcept_ok_get_rev (f : α → Except PyErr β) :
    ∀ (l : List α) (l2 : List β), mapExcept f l = .ok l2 →
      ∀ (i : Nat) (y : β), l2.get? i = some y →
        ∃ x, l.get? i = some x ∧ f x = .ok y := by
  intro l
  induction l with
  | nil =>
    intro l2 h i y hy
    simp only [mapExcept] at h
    cases h
    simp at hy
  | cons a t ih =>
    intro l2 h i y hy
    simp only [mapExcept] at h
    cases hb : f a with
    | error e => rw [hb, error_bind] at h; exact absurd h (by simp)
    | ok b =>
      rw [hb, ok_bind] at h
      cases hbs : mapExcept f t with
      | error e => rw [hbs, error_bind] at h; exact absurd h (by simp)
      | ok bs =>
        rw [hbs, ok_bind] at h
        cases h
        cases i with
        | zero =>
          simp only [List.get?] at hy ⊢
          cases hy
          exact ⟨a, rfl, hb⟩
        | succ j =>
          simp only [List.get?] at hy ⊢
          exact ih bs hbs j y hy

/-- C4 counterexample: with two columns that share the name "a", the dict
comprehension overwrites the first field — the record's (only) field named
`columns[0].name` holds the second cell's coercion, not the first's, so
positional integrity fails for every decoded response as universally
claimed. -/
theorem duplicate_names_shadow_fields :
    parse_and_yield_query_response
        ⟨"q", [⟨"a", "LONG"⟩, ⟨"a", "LONG"⟩], 0, [[.int 1, .int 2]], 1⟩ =
      .ok [[("a", PyVal.int 2)]] ∧
    dictLookup [("a", PyVal.int 2)] "a" = some (.int 2) ∧
    coerceCell "LONG" (.int 1) = .ok (.int 1) ∧
    (PyVal.int 2 : PyVal) ≠ .int 1 :=
  ⟨by decide, by decide, by decide, by decide⟩

/-- C4 amended: for every decoded response whose column names are pairwise
distinct and whose rows each carry exactly one cell per column, every
materialized record has, at the field named `columns[i].name`, exactly the
coercion of the row's i-th cell under `columns[i]`'s declared type; and
applying one permutation to the columns and to every row's cells permutes
only the field order of each record, never any field's value.  (With
duplicate column names the dict comprehension overwrites fields, and with
ragged rows `zip` truncates — both excluded here.) -/
theorem positional_integrity_for_wellformed :
    ∀ (resp : QuestDBResponse) (recs : List PyDict),
      (resp.columns.map (fun c => c.name)).Nodup →
      (∀ row ∈ resp.dataset, row.length = resp.columns.length) →
      parse_and_yield_query_response resp = .ok recs →
      ((∀ (r : Nat) (row : List PyVal) (rec : PyDict),
          resp.dataset.get? r = some row → recs.get? r = some rec →
          ∀ (i : Nat) (c : QuestDBColumn), resp.columns.get? i = some c →
            ∃ v w, row.get? i = some v ∧ coerceCell c.type v = .ok w ∧
              dictLookup rec c.name = some w) ∧
       (∀ σ : List Nat, σ.Perm (List.range resp.columns.length) →
          parse_and_yield_query_response
              { resp with columns := permuteBy σ resp.columns,
                          dataset := resp.dataset.map (permuteBy σ) } =
            .ok (recs.map (permuteBy σ)) ∧
          ∀ (r : Nat) (rec rec2 : PyDict), recs.get? r = some rec →
            (recs.map (permuteBy σ)).get? r = some rec2 →
            rec2.Perm rec ∧ ∀ k : String, dictLookup rec2 k = dictLookup rec k)) := by
  intro resp recs hnd hrect hok
  cases hcv : convertersFor resp.columns with
  | error e =>
    unfold parse_and_yield_query_response at hok
    rw [hcv, error_bind] at hok
    exact absurd hok (by simp)
  | ok convs =>
    unfold parse_and_yield_query_response at hok
    rw [hcv, ok_bind] at hok
    have hclen : convs.length = resp.columns.length := mapExcept_ok_length _ _ _ hcv
    have hnodupT : ∀ row ∈ resp.dataset,
        (((resp.columns.zip convs).zip row).map (fun t => t.1.1.name)).Nodup := by
      intro row hrow
      rw [zip_zip_names resp.columns convs row hclen (hrect row hrow)]
      exact hnd
    constructor
    · intro r row rec hrowg hrecg i c hc
      have hrow : row ∈ resp.dataset := List.get?_mem hrowg
      have hrlen := hrect row hrow
      obtain ⟨rec0, hrec0, hcr⟩ := mapExcept_ok_get _ _ _ hok r row hrowg
      rw [hrecg] at hrec0
      cases hrec0
      rw [convertRow_nil_acc _ (hnodupT row hrow)] at hcr
      obtain ⟨hi, -⟩ := List.get?_eq_some.mp hc
      obtain ⟨f, hf, hmapf⟩ := convertersFor_rel resp.columns convs hcv i c hc
      obtain ⟨v, hv⟩ : ∃ v, row.get? i = some v := by
        have hi2 : i < row.length := by rw [hrlen]; exact hi
        exact ⟨row.get ⟨i, hi2⟩, List.get?_eq_get hi2⟩
      have htrip : ((resp.columns.zip convs).zip row).get? i = some ((c, f), v) :=
        get_zip _ _ i (c, f) v (get_zip _ _ i c f hc hf) hv
      obtain ⟨y, hy, hgy⟩ := mapExcept_ok_get _ _ _ hcr i _ htrip
      have hgy2 : Except.map (fun w => (c.name, w)) (cellConvert f v) = .ok y := hgy
      cases hw : cellConvert f v with
      | error e2 =>
        rw [hw, map_error] at hgy2
        exact absurd hgy2 (by simp)
      | ok w =>
        rw [hw, map_ok] at hgy2
        cases hgy2
        refine ⟨v, w, hv, ?_, ?_⟩
        · show coerceCell c.type v = .ok w
          unfold coerceCell
          rw [hmapf]
          exact hw
        · have hfst : rec.map Prod.fst =
              ((resp.columns.zip convs).zip row).map (fun t => t.1.1.name) :=
            fields_fst _ _ hcr
          have hnodupR : (rec.map Prod.fst).Nodup := by
            rw [hfst]
            exact hnodupT row hrow
          exact (dictLookup_mem_iff rec hnodupR c.name w).mpr (List.get?_mem hy)
    · intro σ hσ
      have hσb : ∀ j ∈ σ, j < resp.columns.length := fun j hj =>
        List.mem_range.mp (hσ.mem_iff.mp hj)
      have hσbc : ∀ j ∈ σ, j < convs.length := fun j hj => by
        rw [hclen]; exact hσb j hj
      have hcv2 : convertersFor (permuteBy σ resp.columns) = .ok (permuteBy σ convs) :=
        mapExcept_permuteBy _ σ _ _ hcv hσb
      have hpt : ∀ row ∈ resp.dataset, ∀ rec,
          convertRow ((resp.columns.zip convs).zip row) [] = .ok rec →
          convertRow (((permuteBy σ resp.columns).zip (permuteBy σ convs)).zip
            (permuteBy σ row)) [] = .ok (permuteBy σ rec) := by
        intro row hrow rec hcr
        have hrlen := hrect row hrow
        have hσbr : ∀ j ∈ σ, j < row.length := fun j hj => by
          rw [hrlen]; exact hσb j hj
        have hσbz : ∀ j ∈ σ, j < (resp.columns.zip convs).length := by
          intro j hj
          rw [List.length_zip, hclen, Nat.min_self]
          exact hσb j hj
        have hzip1 : (permuteBy σ resp.columns).zip (permuteBy σ convs) =
            permuteBy σ (resp.columns.zip convs) := zip_permuteBy σ _ _ hσb hσbc
        have hzip2 : ((permuteBy σ resp.columns).zip (permuteBy σ convs)).zip
            (permuteBy σ row) = permuteBy σ ((resp.columns.zip convs).zip row) := by
          rw [hzip1]
          exact zip_permuteBy σ _ _ hσbz hσbr
        rw [hzip2]
        have hTlen : ((resp.columns.zip convs).zip row).length = resp.columns.length :=
          zip_zip_length _ _ _ hclen hrlen
        have hnames : (permuteBy σ ((resp.columns.zip convs).zip row)).map
            (fun t => t.1.1.name) = permuteBy σ (((resp.columns.zip convs).zip row).map
              (fun t => t.1.1.name)) := (permuteBy_map _ σ _).symm
        have hndP : ((permuteBy σ ((resp.columns.zip convs).zip row)).map
            (fun t => t.1.1.name)).Nodup := by
          rw [hnames]
          have hperm := permuteBy_perm σ
            (((resp.columns.zip convs).zip row).map (fun t => t.1.1.name))
            (by rw [List.length_map, hTlen]; exact hσ)
          exact hperm.nodup_iff.mpr (hnodupT row hrow)
        rw [convertRow_nil_acc _ hndP]
        rw [convertRow_nil_acc _ (hnodupT row hrow)] at hcr
        have hσTb : ∀ j ∈ σ, j < ((resp.columns.zip convs).zip row).length := by
          rw [hTlen]
          exact hσb
        exact mapExcept_permuteBy _ σ _ _ hcr hσTb
      have hpar : parse_and_yield_query_response
          { resp with columns := permuteBy σ resp.columns,
                      dataset := resp.dataset.map (permuteBy σ) } =
          .ok (recs.map (permuteBy σ)) := by
        show (convertersFor (permuteBy σ resp.columns) >>= fun convs2 =>
            mapExcept (fun row =>
              convertRow (((permuteBy σ resp.columns).zip convs2).zip row) [])
              (resp.dataset.map (permuteBy σ))) = .ok (recs.map (permuteBy σ))
        rw [hcv2, ok_bind]
        exact mapExcept_map_both _ (permuteBy σ) _ (permuteBy σ) resp.dataset recs hok
          (fun row hrow rec hcr => hpt row hrow rec hcr)
      refine ⟨hpar, ?_⟩
      intro r rec rec2 hrec hrec2
      rw [List.get?_eq_getElem?, List.getElem?_map, ← List.get?_eq_getElem?, hrec] at hrec2
      have hrec2e : rec2 = permuteBy σ rec := by
        have h2 : some (permuteBy σ rec) = some rec2 := hrec2
        cases h2
        rfl
      subst hrec2e
      obtain ⟨row, hrowg, hcr⟩ := mapExcept_ok_get_rev _ _ _ hok r rec hrec
      have hrow : row ∈ resp.dataset := List.get?_mem hrowg
      rw [convertRow_nil_acc _ (hnodupT row hrow)] at hcr
      have hfst : rec.map Prod.fst =
          ((resp.columns.zip convs).zip row).map (fun t => t.1.1.name) :=
        fields_fst _ _ hcr
      have hndR : (rec.map Prod.fst).Nodup := by
        rw [hfst]
        exact hnodupT row hrow
      have hreclen : rec.length = resp.columns.length := by
        have h1 : rec.length = (rec.map Prod.fst).length := (List.length_map _ _).symm
        rw [h1, hfst, List.length_map]
        exact zip_zip_length _ _ _ hclen (hrect row hrow)
      have hpermR : (permuteBy σ rec).Perm rec := permuteBy_perm σ rec (by
        rw [hreclen]; exact hσ)
      exact ⟨hpermR, fun k => dictLookup_perm rec (permuteBy σ rec) hpermR hndR k⟩

theorem positional_integrity_for_wellformed_witness :
    ∃ v w, ([PyVal.int 7, PyVal.str "x"] : List PyVal).get? 0 = some v ∧
      coerceCell "LONG" v = .ok w ∧
      dictLookup [("a", PyVal.int 7), ("b", PyVal.str "x")] "a" = some w := by
  have h := positional_integrity_for_wellformed
    ⟨"q", [⟨"a", "LONG"⟩, ⟨"b", "VARCHAR"⟩], 0, [[.int 7, .str "x"]], 1⟩
    [[("a", .int 7), ("b", .str "x")]]
    (by decide) (by decide) (by decide)
  exact h.1 0 [.int 7, .str "x"] [("a", .int 7), ("b", .str "x")] (by decide) (by decide)
    0 ⟨"a", "LONG"⟩ (by decide)

theorem descRel_imp_le (p q : SRow) (h : descRel p q) :
    idxKey q.2.1 ≤ idxKey p.2.1 := by
  rcases h with h | ⟨he, -⟩
  · exact le_of_lt h
  · exact le_of_eq he.symm

theorem sort_index_desc_sorted (df : DataFrame) :
    (sort_index_desc df).index.Pairwise (fun a b => idxKey b ≤ idxKey a) := by
  have hs : (List.insertionSort descRel (df.index.zip df.rows).enum).Pairwise descRel :=
    List.sorted_insertionSort descRel _
  exact List.Pairwise.map _ (fun a b h => descRel_imp_le a b h) hs

theorem sort_index_desc_pairs (df : DataFrame) :
    (sort_index_desc df).index.zip (sort_index_desc df).rows =
      (List.insertionSort descRel (df.index.zip df.rows).enum).map Prod.snd := by
  show ((List.insertionSort descRel (df.index.zip df.rows).enum).map (fun p => p.2.1)).zip
      ((List.insertionSort descRel (df.index.zip df.rows).enum).map (fun p => p.2.2)) = _
  rw [List.zip_map']

theorem sort_index_desc_perm (df : DataFrame) :
    ((sort_index_desc df).index.zip (sort_index_desc df).rows).Perm
      (df.index.zip df.rows) := by
  rw [sort_index_desc_pairs]
  have h1 : (List.insertionSort descRel (df.index.zip df.rows).enum).Perm
      (df.index.zip df.rows).enum := List.perm_insertionSort _ _
  have h2 := h1.map Prod.snd
  rwa [List.enum_map_snd] at h2

theorem downcastValues_length (dc : Downcast) (vs : List PyVal) :
    (downcastValues dc vs).values.length = vs.length := by
  cases dc <;> simp only [downcastValues] <;> split_ifs <;> simp

theorem convert_types_col_length (typ : String) (s s2 : Series)
    (h : convert_types_col typ s = .ok s2) : s2.values.length = s.values.length := by
  unfold convert_types_col at h
  split_ifs at h
  · cases hm : mapExcept toDatetimeVal s.values with
    | error e => rw [hm, error_bind] at h; exact absurd h (by simp)
    | ok vs =>
      rw [hm, ok_bind] at h
      cases h
      exact mapExcept_ok_length _ _ _ hm
  · unfold to_numeric at h
    cases hm : mapExcept toNumericVal s.values with
    | error e => rw [hm, error_bind] at h; exact absurd h (by simp)
    | ok vs =>
      rw [hm, ok_bind] at h
      cases h
      rw [downcastValues_length]
      exact mapExcept_ok_length _ _ _ hm
  · unfold to_numeric at h
    cases hm : mapExcept toNumericVal s.values with
    | error e => rw [hm, error_bind] at h; exact absurd h (by simp)
    | ok vs =>
      rw [hm, ok_bind] at h
      cases h
      rw [downcastValues_length]
      exact mapExcept_ok_length _ _ _ hm
  · cases h
    simp [astypeStr]
  · cases h
    rfl

theorem convert_types_step_preserves (df : DataFrame) (c : QuestDBColumn)
    (df2 : DataFrame) (h : convert_types_step df c = .ok df2) :
    df2.colNames = df.colNames ∧ df2.index = df.index ∧
    df2.indexName = df.indexName ∧ df2.rows.length = df.rows.length := by
  unfold convert_types_step at h
  cases hp : colPositions df c.name with
  | nil => rw [hp] at h; exact absurd h (by simp)
  | cons j rest =>
    cases rest with
    | nil =>
      rw [hp] at h
      have h2 : (do
          let s ← convert_types_col c.type ⟨df.dtypes.getD j .object, getColValues df j⟩
          Except.ok { df with dtypes := df.dtypes.set j s.dtype,
                              rows := setColValues df j s.values }) = Except.ok df2 := h
      cases hs : convert_types_col c.type ⟨df.dtypes.getD j .object, getColValues df j⟩ with
      | error e => rw [hs, error_bind] at h2; exact absurd h2 (by simp)
      | ok s2 =>
        rw [hs, ok_bind] at h2
        cases h2
        refine ⟨rfl, rfl, rfl, ?_⟩
        have hv : s2.values.length = df.rows.length := by
          rw [convert_types_col_length _ _ _ hs]
          simp [getColValues]
        simp [setColValues, List.length_zip, hv]
    | cons j2 rest2 =>
      rw [hp] at h
      exact absurd h (by simp)

theorem convert_types_preserves :
    ∀ (columns : List QuestDBColumn) (df df2 : DataFrame),
      convert_types df columns = .ok df2 →
      df2.colNames = df.colNames ∧ df2.index = df.index ∧
      df2.indexName = df.indexName ∧ df2.rows.length = df.rows.length := by
  intro columns
  induction columns with
  | nil =>
    intro df df2 h
    simp only [convert_types] at h
    cases h
    exact ⟨rfl, rfl, rfl, rfl⟩
  | cons c rest ih =>
    intro df df2 h
    simp only [convert_types] at h
    cases hs : convert_types_step df c with
    | error e => rw [hs, error_bind] at h; exact absurd h (by simp)
    | ok dfm =>
      rw [hs, ok_bind] at h
      obtain ⟨h1, h2, h3, h4⟩ := convert_types_step_preserves df c dfm hs
      obtain ⟨g1, g2, g3, g4⟩ := ih dfm df2 h
      exact ⟨g1.trans h1, g2.trans h2, g3.trans h3, g4.trans h4⟩

theorem pd_DataFrame_shape (dataset : List (List PyVal)) (names : List String)
    (df : DataFrame) (h : pd_DataFrame dataset names = .ok df) :
    df.colNames = names ∧ df.indexName = none ∧
    df.index = (List.range dataset.length).map (fun i => PyVal.int i) := by
  unfold pd_DataFrame at h
  by_cases h1 : dataset.isEmpty = true
  · rw [if_pos h1] at h
    have he : dataset = [] := List.isEmpty_iff.mp h1
    subst he
    cases h
    exact ⟨rfl, rfl, rfl⟩
  · rw [if_neg h1] at h
    by_cases h2 : ((dataset.map List.length).foldl max 0 == names.length) = true
    · rw [if_pos h2] at h
      cases h
      exact ⟨rfl, rfl, rfl⟩
    · rw [if_neg h2] at h
      exact absurd h (by simp)

theorem set_index_spec (df : DataFrame) (name : String) (df2 : DataFrame)
    (h : set_index df name = .ok df2) :
    ∃ j, colPositions df name = [j] ∧ df.colNames.get? j = some name ∧
      df2.colNames = df.colNames.eraseIdx j ∧ df2.dtypes = df.dtypes.eraseIdx j ∧
      df2.index = getColValues df j ∧ df2.indexName = some name ∧
      df2.rows = df.rows.map (fun r => r.eraseIdx j) := by
  unfold set_index at h
  cases hp : colPositions df name with
  | nil => rw [hp] at h; exact absurd h (by simp)
  | cons j rest =>
    cases rest with
    | nil =>
      rw [hp] at h
      cases h
      refine ⟨j, rfl, ?_, rfl, rfl, rfl, rfl, rfl⟩
      have hj : j ∈ colPositions df name := by rw [hp]; exact List.mem_cons_self j []
      unfold colPositions at hj
      obtain ⟨p, hpmem, hpj⟩ := List.mem_map.mp hj
      have hpf := List.mem_filter.mp hpmem
      have hpe : p.2 = name := eq_of_beq hpf.2
      have hmem : (p.1, p.2) ∈ df.colNames.enum := hpf.1
      have := (List.mem_enum_iff_get?.mp hmem)
      rw [hpj] at this
      rw [this, hpe]
    | cons j2 rest2 =>
      rw [hp] at h
      exact absurd h (by simp)

/-- C3 counterexample: a response whose only column is declared TIMESTAMP
but named "" produces a table with no designated index — `if timestamp_col:`
tests Python truthiness of the NAME, so an empty-named timestamp column is
skipped and the claimed "if and only if at least one column is declared
TIMESTAMP" fails. -/
theorem empty_name_timestamp_not_indexed :
    query_df ⟨"q", [⟨"", "TIMESTAMP"⟩], 0, [[.str "2023-08-14T12:00:00.000000Z"]], 1⟩ =
      .ok ⟨[""], [.datetime64], [.int 0], none,
           [[.datetime ⟨2023, 8, 14, 12, 0, 0, 0, some 0⟩]]⟩ ∧
    (([⟨"", "TIMESTAMP"⟩] : List QuestDBColumn).find? (fun c => c.type == "TIMESTAMP") =
      some ⟨"", "TIMESTAMP"⟩) ∧
    (⟨[""], [.datetime64], [.int 0], none,
      [[.datetime ⟨2023, 8, 14, 12, 0, 0, 0, some 0⟩]]⟩ : DataFrame).indexName = none :=
  ⟨by decide, by decide, rfl⟩

/-- C3 amended: if the first column declared TIMESTAMP has a non-empty name
(Python truthiness of the name, not mere existence, is what the code
tests), the table's designated index is built from that column — the
column is removed from the column set and its converted values become the
index — and the rows are reordered non-increasing by the index key with
the multiset of (index, row) pairs preserved; the relative order of tied
keys is not asserted, since `sort_index` is called with its default
`kind="quicksort"`, which guarantees none.  If there is no TIMESTAMP
column, or its name is empty, the table keeps the default range index in
decoded row order with no designated index. -/
theorem timestamp_indexing_amended :
    ∀ (resp : QuestDBResponse) (df : DataFrame), query_df resp = .ok df →
      ((resp.columns.find? (fun c => c.type == "TIMESTAMP") = none ∨
        (∃ c, resp.columns.find? (fun c => c.type == "TIMESTAMP") = some c ∧ c.name = "")) →
        df.indexName = none ∧
        df.index = (List.range resp.dataset.length).map (fun i => PyVal.int i) ∧
        df.colNames = resp.columns.map (fun c => c.name)) ∧
      (∀ c, resp.columns.find? (fun c => c.type == "TIMESTAMP") = some c → c.name ≠ "" →
        ∃ df0 dfc dfs j,
          pd_DataFrame resp.dataset (resp.columns.map (fun c => c.name)) = .ok df0 ∧
          convert_types df0 resp.columns = .ok dfc ∧
          set_index dfc c.name = .ok dfs ∧
          dfc.colNames.get? j = some c.name ∧
          df.colNames = dfc.colNames.eraseIdx j ∧
          dfs.index = getColValues dfc j ∧
          df.indexName = some c.name ∧
          df.index.Pairwise (fun a b => idxKey b ≤ idxKey a) ∧
          (df.index.zip df.rows).Perm (dfs.index.zip dfs.rows)) := by
  intro resp df hdf
  unfold query_df at hdf
  cases hpd : pd_DataFrame resp.dataset (resp.columns.map (fun c => c.name)) with
  | error e => rw [hpd, error_bind] at hdf; exact absurd hdf (by simp)
  | ok df0 =>
    rw [hpd, ok_bind] at hdf
    cases hcv : convert_types df0 resp.columns with
    | error e => rw [hcv, error_bind] at hdf; exact absurd hdf (by simp)
    | ok dfc =>
      rw [hcv, ok_bind] at hdf
      obtain ⟨hsh1, hsh2, hsh3⟩ := pd_DataFrame_shape _ _ _ hpd
      obtain ⟨hcp1, hcp2, hcp3, -⟩ := convert_types_preserves _ _ _ hcv
      cases hfind : resp.columns.find? (fun c => c.type == "TIMESTAMP") with
      | none =>
        rw [hfind] at hdf
        have hdf2 : Except.ok dfc = Except.ok df := hdf
        cases hdf2
        constructor
        · intro _
          exact ⟨hcp3.trans hsh2, hcp2.trans hsh3, hcp1.trans hsh1⟩
        · intro c hc hne
          exact absurd hc (by simp)
      | some c0 =>
        rw [hfind] at hdf
        have hdf2 : (if c0.name ≠ "" then (do
            let dfs ← set_index dfc c0.name
            Except.ok (sort_index_desc dfs)) else Except.ok dfc) = Except.ok df := hdf
        by_cases hname : c0.name = ""
        · rw [if_neg (not_not_intro hname)] at hdf2
          cases hdf2
          constructor
          · intro _
            exact ⟨hcp3.trans hsh2, hcp2.trans hsh3, hcp1.trans hsh1⟩
          · intro c hc hne
            cases hc
            exact absurd hname hne
        · rw [if_pos hname] at hdf2
          cases hsi : set_index dfc c0.name with
          | error e => rw [hsi, error_bind] at hdf2; exact absurd hdf2 (by simp)
          | ok dfs =>
            rw [hsi, ok_bind] at hdf2
            cases hdf2
            constructor
            · intro hcond
              rcases hcond with hnone | ⟨c1, hc1, hc1e⟩
              · exact absurd hnone (by simp)
              · cases hc1
                exact absurd hc1e hname
            · intro c hc hne
              cases hc
              obtain ⟨j, hjpos, hjget, hjcn, hjdt, hjidx, hjin, hjrows⟩ :=
                set_index_spec dfc c0.name dfs hsi
              refine ⟨df0, dfc, dfs, j, rfl, hcv, hsi, hjget, ?_, hjidx, ?_,
                sort_index_desc_sorted dfs, sort_index_desc_perm dfs⟩
              · show dfs.colNames = dfc.colNames.eraseIdx j
                exact hjcn
              · show dfs.indexName = some c0.name
                exact hjin

theorem timestamp_indexing_amended_witness :
    (⟨["v"], [.int8],
      [.datetime ⟨2023, 8, 15, 12, 0, 0, 0, some 0⟩,
       .datetime ⟨2023, 8, 14, 12, 0, 0, 0, some 0⟩,
       .datetime ⟨2023, 8, 14, 12, 0, 0, 0, some 0⟩], some "ts",
      [[.int 2], [.int 1], [.int 3]]⟩ : DataFrame).indexName = some "ts" ∧
    (⟨["v"], [.int8],
      [.datetime ⟨2023, 8, 15, 12, 0, 0, 0, some 0⟩,
       .datetime ⟨2023, 8, 14, 12, 0, 0, 0, some 0⟩,
       .datetime ⟨2023, 8, 14, 12, 0, 0, 0, some 0⟩], some "ts",
      [[.int 2], [.int 1], [.int 3]]⟩ : DataFrame).index.Pairwise
        (fun a b => idxKey b ≤ idxKey a) := by
  have h := (timestamp_indexing_amended
    ⟨"q", [⟨"v", "LONG"⟩, ⟨"ts", "TIMESTAMP"⟩], 0,
      [[.int 1, .str "2023-08-14T12:00:00.000000Z"],
       [.int 2, .str "2023-08-15T12:00:00.000000Z"],
       [.int 3, .str "2023-08-14T12:00:00.000000Z"]], 3⟩
    ⟨["v"], [.int8],
      [.datetime ⟨2023, 8, 15, 12, 0, 0, 0, some 0⟩,
       .datetime ⟨2023, 8, 14, 12, 0, 0, 0, some 0⟩,
       .datetime ⟨2023, 8, 14, 12, 0, 0, 0, some 0⟩], some "ts",
      [[.int 2], [.int 1], [.int 3]]⟩ (by decide)).2
    ⟨"ts", "TIMESTAMP"⟩ (by decide) (by decide)
  obtain ⟨df0, dfc, dfs, j, -, -, -, -, -, -, hin, hsort, -⟩ := h
  exact ⟨hin, hsort⟩
